import Mathlib

/-!
# go-movies: the token session subsystem (`cmd/api/auth.go`)

A shallow embedding of `auth.GenerateTokenPair`, `auth.GetRefreshCookie`,
`auth.GetExpiredRefreshCookie` and `auth.GetTokenFromHeaderAndVerify`, and of the
handler `application.refreshToken` of `cmd/api/handlers.go`, together with the
parts of the Go standard library and of `github.com/golang-jwt/jwt/v4` they call.

Conventions of the embedding
* Go strings are Lean `String`s (valid UTF-8 text).
* `time.Time` is an `Int`: nanoseconds since the Unix epoch. `time.Duration` is
  an `Int`: nanoseconds (an `int64` in Go; theorems that depend on the range
  carry it as a hypothesis).
* `time.Now()` is an explicit argument: every call of the clock in the source
  is one argument of the embedded function.
* A Go result `(value, error)` is a structure or pair with an `Option` error,
  `none` standing for `nil`; inside the library model it is an `Except`.
* `github.com/golang-jwt/jwt/v4` is an external dependency. Its control flow
  (`Parser.ParseWithClaims`, `Token.SignedString`, `RegisteredClaims.Valid`) is
  embedded as definitions; its codecs (base64url, JSON, HMAC) are the fields of
  the parameter `JWT`, constrained by the laws of `JWT.Lawful`.
-/

namespace GoMovies

/-! ## Go standard library: `strings`, `strconv`, `fmt` -/

/-- Go `unicode.IsSpace`: the white space characters of Unicode. -/
def isSpace (c : Char) : Bool :=
  let n := c.toNat
  (9 ≤ n && n ≤ 13) || n == 32 || n == 0x85 || n == 0xA0 || n == 0x1680 ||
  (0x2000 ≤ n && n ≤ 0x200A) || n == 0x2028 || n == 0x2029 || n == 0x202F ||
  n == 0x205F || n == 0x3000

/-- Worker of `strings.Fields`: `cur` is the field being read, reversed. -/
def fieldsAux : List Char → List Char → List String
  | [], cur => if cur.isEmpty then [] else [String.mk cur.reverse]
  | c :: cs, cur =>
    if isSpace c then
      if cur.isEmpty then fieldsAux cs [] else String.mk cur.reverse :: fieldsAux cs []
    else fieldsAux cs (c :: cur)

/-- Go `strings.Fields`: the maximal runs of non-space characters of `s`. -/
def Fields (s : String) : List String := fieldsAux s.data []

/-- Worker of `strings.Split` for a one-character separator. -/
def splitAux (sep : Char) : List Char → List Char → List String
  | [], cur => [String.mk cur.reverse]
  | c :: cs, cur =>
    if c = sep then String.mk cur.reverse :: splitAux sep cs [] else splitAux sep cs (c :: cur)

/-- Go `strings.Split(s, ".")`. -/
def SplitDot (s : String) : List String := splitAux '.' s.data []

/-- Go `strings.Join(parts, ".")`. -/
def JoinDot : List String → String
  | [] => ""
  | [p] => p
  | p :: ps => p ++ "." ++ JoinDot ps

/-- The decimal digit character of `d % 10`. -/
def digitChar (d : Nat) : Char := Char.ofNat (48 + d % 10)

/-- The decimal digits of `n`, least significant first, at most `fuel` of them. -/
def natDigitsRev : Nat → Nat → List Char
  | 0, _ => []
  | fuel + 1, n => if n < 10 then [digitChar n] else digitChar n :: natDigitsRev fuel (n / 10)

/-- Go `strconv.FormatUint(n, 10)`. -/
def formatNat (n : Nat) : String := String.mk (natDigitsRev (n + 1) n).reverse

/-- Go `fmt.Sprint(i)` for an `int`, that is `strconv.FormatInt(i, 10)`. -/
def Sprint (i : Int) : String :=
  if i < 0 then "-" ++ formatNat i.natAbs else formatNat i.natAbs

/-- The value of a non-empty string of decimal digits, read left to right. -/
def parseDigits : List Char → Nat → Option Nat
  | [], acc => some acc
  | c :: cs, acc =>
    if 48 ≤ c.toNat ∧ c.toNat ≤ 57 then parseDigits cs (acc * 10 + (c.toNat - 48)) else none

/-- Go `strconv.Atoi` on a 64-bit platform: an optional sign, at least one
decimal digit, and a value in the range of `int`; `none` is a non-nil error. -/
def Atoi (s : String) : Option Int :=
  let body (neg : Bool) (ds : List Char) : Option Int :=
    if ds.isEmpty then none else
    match parseDigits ds 0 with
    | none => none
    | some n =>
      let v : Int := if neg then -(n : Int) else (n : Int)
      if -(2 ^ 63 : Int) ≤ v ∧ v < 2 ^ 63 then some v else none
  match s.data with
  | [] => none
  | '-' :: ds => body true ds
  | '+' :: ds => body false ds
  | ds => body false ds

/-! ## Go standard library: `time` and `float64` -/

/-- One second, as a `time.Duration`. -/
def Second : Int := 1000000000

/-- Go `Time.Unix()`: whole seconds since the epoch, rounded down. -/
def Unix (t : Int) : Int := t / Second

/-- Go `time.Unix(sec, 0)`. -/
def timeOfUnix (sec : Int) : Int := sec * Second

/-- Number of binary digits of `n`, with `fuel` at least that number. -/
def bitLen : Nat → Nat → Nat
  | 0, _ => 0
  | fuel + 1, n => if n = 0 then 0 else bitLen fuel (n / 2) + 1

/-- A non-negative finite `float64`: the value `m / 2 ^ k` (`m * 2 ^ (-k)` when `k < 0`). -/
structure F64 where
  m : Nat
  k : Int
  deriving DecidableEq, Repr

/-- Numerator of a `float64` over the denominator `F64.den`. -/
def F64.num (f : F64) : Nat := if 0 ≤ f.k then f.m else f.m * 2 ^ (-f.k).toNat

/-- Denominator of a `float64`, a power of two. -/
def F64.den (f : F64) : Nat := if 0 ≤ f.k then 2 ^ f.k.toNat else 1

/-- The binary exponent `e` of the positive rational `p / q`: `2 ^ e ≤ p / q < 2 ^ (e + 1)`. -/
def binExponent (p q : Nat) : Int :=
  let e0 : Int := (bitLen (p + 1) p : Int) - (bitLen (q + 1) q : Int)
  let le : Bool := if 0 ≤ e0 then q * 2 ^ e0.toNat ≤ p else q ≤ p * 2 ^ (-e0).toNat
  if le then e0 else e0 - 1

/-- Rounding of the non-negative rational `p / q` to the nearest IEEE 754
binary64 value: 53 significant bits, ties to even (normal range). Every
`float64` operation is the exact operation followed by this rounding. -/
def roundF64 (p q : Nat) : F64 :=
  if p = 0 then ⟨0, 0⟩ else
  let k : Int := 52 - binExponent p q
  let n := if 0 ≤ k then p * 2 ^ k.toNat else p
  let d := if 0 ≤ k then q else q * 2 ^ (-k).toNat
  let fl := n / d
  let r := n % d
  let m := if 2 * r < d then fl else if d < 2 * r then fl + 1 else if fl % 2 = 0 then fl else fl + 1
  ⟨m, k⟩

/-- Go `Duration.Seconds()` followed by the conversion `int(...)`, on a
non-negative duration of `n` nanoseconds:
`sec := d / Second; nsec := d % Second; return float64(sec) + float64(nsec)/1e9`,
then the fraction is discarded. -/
def secondsTrunc (n : Nat) : Nat :=
  let sec := roundF64 (n / 1000000000) 1
  let nsec := roundF64 (n % 1000000000) 1
  let frac := roundF64 nsec.num (nsec.den * 1000000000)
  let sum := roundF64 (sec.num * frac.den + frac.num * sec.den) (sec.den * frac.den)
  sum.num / sum.den

/-- Go `int(d.Seconds())`. Go's `/` and `%` truncate toward zero and `float64`
arithmetic is symmetric in the sign, so a negative duration gives the negated
result of its absolute value. -/
def intSeconds (d : Int) : Int :=
  if d < 0 then -(secondsTrunc d.natAbs : Int) else (secondsTrunc d.natAbs : Int)

/-! ## `net/http`: cookies and headers -/

/-- Go `http.SameSite`. -/
inductive SameSite where
  | SameSiteDefaultMode
  | SameSiteLaxMode
  | SameSiteStrictMode
  | SameSiteNoneMode
  deriving DecidableEq, Repr

/-- Go `http.Cookie`, the fields a `Set-Cookie` header is written from. -/
structure Cookie where
  Name : String
  Value : String
  Path : String
  Domain : String
  Expires : Int
  MaxAge : Int
  Secure : Bool
  HttpOnly : Bool
  SameSite : SameSite
  deriving DecidableEq, Repr

/-- Go `http.Header`: the values of each header name, in order. -/
abbrev Header := List (String × List String)

/-- Go `Header.Get`: the first value of the name, or the empty string. -/
def Header.Get (h : Header) (key : String) : String :=
  match h.lookup key with
  | some (v :: _) => v
  | _ => ""

/-- Go `Header.Add`: append a value to the values of the name. -/
def Header.Add : Header → String → String → Header
  | [], key, v => [(key, [v])]
  | (k, vs) :: rest, key, v =>
    if k = key then (k, vs ++ [v]) :: rest else (k, vs) :: Header.Add rest key v

/-- Go `http.Request`, the part read by the session subsystem. -/
structure Request where
  Header : Header
  deriving DecidableEq, Repr

/-! ## `github.com/golang-jwt/jwt/v4` -/

/-- A Go value held in a `map[string]interface{}`: a string, an `int64`, or a
value of another type (`float64`, `bool`, `nil`, a slice, a map). -/
inductive Value where
  | str (s : String)
  | int (i : Int)
  | other
  deriving DecidableEq, Repr

/-- Go `jwt.MapClaims`, also the type of `Token.Header`: `map[string]interface{}`,
kept as an association list with distinct keys. -/
abbrev MapClaims := List (String × Value)

/-- Go map assignment `m[k] = v`. -/
def MapClaims.set : MapClaims → String → Value → MapClaims
  | [], k, v => [(k, v)]
  | (k', v') :: rest, k, v =>
    if k' = k then (k, v) :: rest else (k', v') :: MapClaims.set rest k v

/-- Go `jwt.RegisteredClaims`. A `*NumericDate` is an optional `time.Time`. -/
structure RegisteredClaims where
  Issuer : String
  Subject : String
  Audience : List String
  ExpiresAt : Option Int
  NotBefore : Option Int
  IssuedAt : Option Int
  ID : String
  deriving DecidableEq, Repr

/-- The type `claims` of `auth.go`: a struct that embeds `jwt.RegisteredClaims`
and has no other field. -/
structure claims extends RegisteredClaims
  deriving DecidableEq, Repr

/-- The zero value `claims{}`. -/
def claims.zero : claims := ⟨⟨"", "", [], none, none, none, ""⟩⟩

/-- The signing methods registered by the library. -/
inductive SigningMethod where
  | HS256 | HS384 | HS512
  | RS256 | RS384 | RS512
  | PS256 | PS384 | PS512
  | ES256 | ES384 | ES512
  | EdDSA
  | none
  deriving DecidableEq, Repr

/-- Go `SigningMethod.Alg()`. -/
def SigningMethod.Alg : SigningMethod → String
  | .HS256 => "HS256" | .HS384 => "HS384" | .HS512 => "HS512"
  | .RS256 => "RS256" | .RS384 => "RS384" | .RS512 => "RS512"
  | .PS256 => "PS256" | .PS384 => "PS384" | .PS512 => "PS512"
  | .ES256 => "ES256" | .ES384 => "ES384" | .ES512 => "ES512"
  | .EdDSA => "EdDSA"
  | .none => "none"

/-- Go `jwt.GetSigningMethod`: the registered method of that name, if any. -/
def GetSigningMethod (alg : String) : Option SigningMethod :=
  [SigningMethod.HS256, .HS384, .HS512, .RS256, .RS384, .RS512, .PS256, .PS384, .PS512,
    .ES256, .ES384, .ES512, .EdDSA, .none].find? (fun m => m.Alg == alg)

/-- The type assertion `t.Method.(*jwt.SigningMethodHMAC)` succeeds. -/
def SigningMethod.isHMAC : SigningMethod → Bool
  | .HS256 | .HS384 | .HS512 => true
  | _ => false

/-- The bits of `ValidationError.Errors`. -/
def ValidationErrorMalformed : Nat := 1
/-- Token could not be verified because of signing problems. -/
def ValidationErrorUnverifiable : Nat := 2
/-- Signature validation failed. -/
def ValidationErrorSignatureInvalid : Nat := 4
/-- EXP validation failed. -/
def ValidationErrorExpired : Nat := 16
/-- IAT validation failed. -/
def ValidationErrorIssuedAt : Nat := 32
/-- NBF validation failed. -/
def ValidationErrorNotValidYet : Nat := 128

/-- Go `jwt.ValidationError`: the message of the inner error (or the error
text) and the bit field `Errors`. -/
structure ValidationError where
  Inner : String
  Errors : Nat
  deriving DecidableEq, Repr

/-- Go `errors.Is(err, jwt.ErrTokenExpired)` on a `*ValidationError`: the
`ValidationErrorExpired` bit is set. -/
def ValidationError.IsExpired (e : ValidationError) : Bool :=
  e.Errors &&& ValidationErrorExpired != 0

/-- A Go `error` value of the subsystem: `errors.New(msg)` (or `fmt.Errorf`),
or an error of the token library passed on unchanged. -/
inductive Error where
  | text (msg : String)
  | jwt (e : ValidationError)
  deriving DecidableEq, Repr

/-- Go `jwt.Token`. -/
structure Token where
  Raw : String
  Method : Option SigningMethod
  Header : MapClaims
  Claims : claims
  Signature : String
  Valid : Bool
  deriving DecidableEq, Repr

/-- The codecs of the token library, which the embedding does not look into.
* `encodeSegment m` is `EncodeSegment(json.Marshal(m))`;
* `decodeHeader seg` is `DecodeSegment` then `json.Unmarshal` into `Token.Header`;
* `decodeClaims seg` is `DecodeSegment` then the JSON decoding into a zero `claims`;
* `hmacSign m s key` is `SigningMethodHMAC.Sign(s, key)` with a `[]byte` key;
* `hmacVerify m s sig key` is `SigningMethodHMAC.Verify(s, sig, key) == nil`;
* `verifyFirst` tells the release: from v4.5.0 on `ParseWithClaims` verifies the
  signature before it validates the claims, earlier releases validate the
  claims first and report both failures together.
`none` and `Except.error` are non-nil errors. -/
structure JWT where
  encodeSegment : MapClaims → String
  decodeHeader : String → Option MapClaims
  decodeClaims : String → Option RegisteredClaims
  hmacSign : SigningMethod → String → String → Except Error String
  hmacVerify : SigningMethod → String → String → String → Bool
  verifyFirst : Bool

/-- Go `jwt.New(method)`. -/
def New (method : SigningMethod) : MapClaims × MapClaims × SigningMethod :=
  ([("typ", .str "JWT"), ("alg", .str method.Alg)], [], method)

/-- Go `Token.SigningString`. -/
def SigningString (J : JWT) (header claimsMap : MapClaims) : String :=
  JoinDot [J.encodeSegment header, J.encodeSegment claimsMap]

/-- Go `Token.SignedString(key)` for a token of an HMAC method and a `[]byte` key. -/
def SignedString (J : JWT) (t : MapClaims × MapClaims × SigningMethod) (key : String) :
    Except Error String :=
  let sstr := SigningString J t.1 t.2.1
  match J.hmacSign t.2.2 sstr key with
  | .error e => .error e
  | .ok sig => .ok (JoinDot [sstr, sig])

/-- Go `SigningMethod.Verify(signingString, signature, key) == nil` for a
`[]byte` key: the methods other than HMAC reject a key of that type. -/
def SigningMethod.Verify (J : JWT) (m : SigningMethod) (signingString signature key : String) :
    Bool :=
  if m.isHMAC then J.hmacVerify m signingString signature key else false

/-- Go `RegisteredClaims.Valid()` at the clock reading `now`: `exp` must be
after `now`; `iat` and `nbf` must not be after `now`; an absent claim passes.
The text of the expiry error leaves out the time elapsed since the expiry. -/
def RegisteredClaims.Valid (c : RegisteredClaims) (now : Int) : Option ValidationError :=
  let v0 : ValidationError := ⟨"", 0⟩
  let v1 : ValidationError :=
    match c.ExpiresAt with
    | some exp => if now < exp then v0 else ⟨"token is expired", v0.Errors ||| ValidationErrorExpired⟩
    | .none => v0
  let v2 : ValidationError :=
    match c.IssuedAt with
    | some iat =>
      if iat ≤ now then v1 else ⟨"token used before issued", v1.Errors ||| ValidationErrorIssuedAt⟩
    | .none => v1
  let v3 : ValidationError :=
    match c.NotBefore with
    | some nbf =>
      if nbf ≤ now then v2 else ⟨"token is not valid yet", v2.Errors ||| ValidationErrorNotValidYet⟩
    | .none => v2
  if v3.Errors = 0 then .none else some v3

/-- Go `Parser.ParseUnverified` with a zero `claims` to decode into: the token,
its parts and the error. -/
def ParseUnverified (J : JWT) (tokenString : String) :
    Option Token × List String × Option ValidationError :=
  let parts := SplitDot tokenString
  if parts.length ≠ 3 then
    (.none, parts, some ⟨"token contains an invalid number of segments", ValidationErrorMalformed⟩)
  else
    let token : Token := ⟨tokenString, .none, [], claims.zero, "", false⟩
    match J.decodeHeader (parts.getD 0 "") with
    | .none => (some token, parts, some ⟨"malformed header", ValidationErrorMalformed⟩)
    | some header =>
      let token := { token with Header := header }
      match J.decodeClaims (parts.getD 1 "") with
      | .none => (some token, parts, some ⟨"malformed claims", ValidationErrorMalformed⟩)
      | some rc =>
        let token := { token with Claims := ⟨rc⟩ }
        match header.lookup "alg" with
        | some (.str method) =>
          match GetSigningMethod method with
          | .none =>
            (some token, parts,
              some ⟨"signing method (alg) is unavailable.", ValidationErrorUnverifiable⟩)
          | some m => (some { token with Method := some m }, parts, .none)
        | _ =>
          (some token, parts,
            some ⟨"signing method (alg) is unspecified.", ValidationErrorUnverifiable⟩)

/-- Go `Parser.ParseWithClaims(tokenString, &claims{}, keyFunc)` with the
default parser, at the clock reading `now` of `jwt.TimeFunc`. -/
def ParseWithClaims (J : JWT) (now : Int) (tokenString : String)
    (keyFunc : Token → Except String String) : Option Token × Option ValidationError :=
  match ParseUnverified J tokenString with
  | (token, _, some err) => (token, some err)
  | (.none, _, .none) => (.none, some ⟨"token is invalid", ValidationErrorMalformed⟩)
  | (some token, parts, .none) =>
    match token.Method with
    | .none => (some token, some ⟨"token is invalid", ValidationErrorUnverifiable⟩)
    | some method =>
      match keyFunc token with
      | .error e => (some token, some ⟨e, ValidationErrorUnverifiable⟩)
      | .ok key =>
        let token := { token with Signature := parts.getD 2 "" }
        let sigOK := method.Verify J (JoinDot (parts.take 2)) token.Signature key
        if J.verifyFirst then
          if !sigOK then
            (some token, some ⟨"signature is invalid", ValidationErrorSignatureInvalid⟩)
          else
            match token.Claims.toRegisteredClaims.Valid now with
            | some vErr => (some token, some vErr)
            | .none => (some { token with Valid := true }, .none)
        else
          let vErr : ValidationError :=
            match token.Claims.toRegisteredClaims.Valid now with
            | some e => e
            | .none => ⟨"", 0⟩
          let vErr : ValidationError :=
            if !sigOK then ⟨"signature is invalid", vErr.Errors ||| ValidationErrorSignatureInvalid⟩
            else vErr
          if vErr.Errors = 0 then (some { token with Valid := true }, .none)
          else (some token, some vErr)

/-- Go `fmt.Sprintf("%v", v)` of a header value. -/
def fmtV : Option Value → String
  | some (.str s) => s
  | some (.int i) => Sprint i
  | some .other => "<value>"
  | .none => "<nil>"

/-! ## `cmd/api/auth.go`: configuration and cookies -/

/-- The type `auth` of `auth.go`. -/
structure auth where
  Issuer : String
  Audience : String
  Secret : String
  TokenExpiry : Int
  RefreshExpiry : Int
  CookieDomain : String
  CookiePath : String
  CookieName : String
  deriving DecidableEq, Repr

/-- The type `jwtUser` of `auth.go`. -/
structure jwtUser where
  ID : Int
  FirstName : String
  LastName : String
  deriving DecidableEq, Repr

/-- The type `tokenPairs` of `auth.go`. -/
structure tokenPairs where
  Token : String
  RefresToken : String
  deriving DecidableEq, Repr

/-- The method `auth.GetRefreshCookie`; `now` is the reading of `time.Now()`. -/
def auth.GetRefreshCookie (a : auth) (now : Int) (refreshToken : String) : Cookie :=
  { Name := a.CookieName
    Path := a.CookiePath
    Value := refreshToken
    Expires := now + a.RefreshExpiry
    MaxAge := intSeconds a.RefreshExpiry
    SameSite := .SameSiteStrictMode
    Domain := a.CookieDomain
    Secure := true
    HttpOnly := true }

/-- The method `auth.GetExpiredRefreshCookie`. -/
def auth.GetExpiredRefreshCookie (a : auth) : Cookie :=
  { Name := a.CookieName
    Path := a.CookiePath
    Value := ""
    Expires := timeOfUnix 0
    MaxAge := -1
    SameSite := .SameSiteStrictMode
    Domain := a.CookieDomain
    Secure := true
    HttpOnly := true }

/-! ## `cmd/api/auth.go`: issuing and verifying tokens -/

/-- The claims of the access token as `GenerateTokenPair` sets them (lines 45-54);
`t1` and `t2` are the two readings of `time.Now()`. -/
def auth.accessClaims (a : auth) (user : jwtUser) (t1 t2 : Int) : MapClaims :=
  let claims : MapClaims := (New .HS256).2.1
  let claims := claims.set "name" (.str (user.FirstName ++ " " ++ user.LastName))
  let claims := claims.set "sub" (.str (Sprint user.ID))
  let claims := claims.set "aud" (.str a.Audience)
  let claims := claims.set "iss" (.str a.Issuer)
  let claims := claims.set "iat" (.int (Unix t1))
  let claims := claims.set "typ" (.str "JWT")
  claims.set "exp" (.int (Unix (t2 + a.TokenExpiry)))

/-- The claims of the refresh token as `GenerateTokenPair` sets them (lines 65-70);
`t3` and `t4` are the two readings of `time.Now()`. -/
def auth.refreshClaims (a : auth) (user : jwtUser) (t3 t4 : Int) : MapClaims :=
  let refreshTokenClaims : MapClaims := (New .HS256).2.1
  let refreshTokenClaims := refreshTokenClaims.set "sub" (.str (Sprint user.ID))
  let refreshTokenClaims := refreshTokenClaims.set "iat" (.int (Unix t3))
  refreshTokenClaims.set "exp" (.int (Unix (t4 + a.RefreshExpiry)))

/-- The method `auth.GenerateTokenPair`; `t1`, `t2`, `t3`, `t4` are the readings of the
four calls of `time.Now()`, in the order of the source. -/
def auth.GenerateTokenPair (J : JWT) (a : auth) (user : jwtUser) (t1 t2 t3 t4 : Int) :
    tokenPairs × Option Error :=
  let token := New .HS256
  match SignedString J (token.1, a.accessClaims user t1 t2, token.2.2) a.Secret with
  | .error err => (⟨"", ""⟩, some err)
  | .ok signedAccessToken =>
    let refreshToken := New .HS256
    match SignedString J (refreshToken.1, a.refreshClaims user t3 t4, refreshToken.2.2)
        a.Secret with
    | .error err => (⟨"", ""⟩, some err)
    | .ok signedRefreshToken =>
      let pair : tokenPairs := { Token := signedAccessToken, RefresToken := signedRefreshToken }
      (pair, .none)

/-- The result `(string, *claims, error)` of `GetTokenFromHeaderAndVerify`. -/
structure VerifyResult where
  token : String
  claims : Option claims
  err : Option Error
  deriving DecidableEq, Repr

/-- The key function that `GetTokenFromHeaderAndVerify` hands to the parser. -/
def auth.keyFunc (a : auth) (t : Token) : Except String String :=
  match t.Method with
  | some m =>
    if m.isHMAC then .ok a.Secret
    else .error ("unexpected signing method: " ++ fmtV (t.Header.lookup "alg"))
  | .none => .error ("unexpected signing method: " ++ fmtV (t.Header.lookup "alg"))

/-- The method `auth.GetTokenFromHeaderAndVerify`; `now` is the clock reading of the
parser, `w` the headers of the response writer, returned as updated. -/
def auth.GetTokenFromHeaderAndVerify (J : JWT) (a : auth) (now : Int) (w : Header)
    (r : Request) : Header × VerifyResult :=
  let w := w.Add "Vary" "Authorization"
  let authHeader := r.Header.Get "Authorization"
  if authHeader = "" then
    (w, ⟨"", .none, some (.text "no auth header")⟩)
  else
    let headerParts := Fields authHeader
    if headerParts.length ≠ 2 then
      (w, ⟨"", .none, some (.text "invalid auth header")⟩)
    else if headerParts.getD 0 "" ≠ "Bearer" then
      (w, ⟨"", .none, some (.text "invalid auth header")⟩)
    else
      let token := headerParts.getD 1 ""
      match ParseWithClaims J now token a.keyFunc with
      | (_, some err) =>
        if err.IsExpired then (w, ⟨"", .none, some (.text "expired token")⟩)
        else (w, ⟨"", .none, some (.jwt err)⟩)
      | (parsed, .none) =>
        let claims : claims := match parsed with
          | some t => t.Claims
          | .none => claims.zero
        if claims.Issuer ≠ a.Issuer then
          (w, ⟨"", .none, some (.text "invalid issuer")⟩)
        else
          (w, ⟨token, some claims, .none⟩)

/-- The claims of a token string that is validly signed under `key`: the
string has three segments, its header decodes and names an HMAC method, its
payload decodes, and the signature verifies over the first two segments.
`none` when the string is not validly signed. -/
def signedClaims (J : JWT) (key tokenString : String) : Option RegisteredClaims :=
  match SplitDot tokenString with
  | [hs, ps, ss] =>
    match J.decodeHeader hs with
    | some hd =>
      match hd.lookup "alg" with
      | some (.str alg) =>
        match GetSigningMethod alg with
        | some m =>
          if m.isHMAC && J.hmacVerify m (JoinDot [hs, ps]) ss key then J.decodeClaims ps
          else .none
        | .none => .none
      | _ => .none
    | .none => .none
  | _ => .none

/-- The failure kinds of the verifier in the words of the specification (§7). -/
inductive FailureKind where
  | MissingAuth
  | MalformedHeader
  | BadSignature
  | Expired
  | WrongIssuer
  deriving DecidableEq, Repr

/-- The failure kind of an error that `GetTokenFromHeaderAndVerify` returns:
its own four errors by their text; an error of the token library, which the
verifier passes on unchanged, is the kind `BadSignature` ("includes algorithm
mismatch and tampered payload"). -/
def failureKind : Error → Option FailureKind
  | .text msg =>
    if msg = "no auth header" then some .MissingAuth
    else if msg = "invalid auth header" then some .MalformedHeader
    else if msg = "expired token" then some .Expired
    else if msg = "invalid issuer" then some .WrongIssuer
    else .none
  | .jwt _ => some .BadSignature

/-- A request whose only header is `Authorization: h`. -/
def requestWithAuthorization (h : String) : Request := ⟨[("Authorization", [h])]⟩

/-! ## The laws of the codecs -/

/-- The alphabet of base64url: letters, digits, `-` and `_`. -/
def isBase64URL (c : Char) : Bool :=
  let n := c.toNat
  (65 ≤ n && n ≤ 90) || (97 ≤ n && n ≤ 122) || (48 ≤ n && n ≤ 57) || n == 45 || n == 95

/-- A claim that JSON carries into `RegisteredClaims` unchanged: a registered
string claim holding a string, a registered date holding an `int64` that a
`float64` represents exactly, or one of the private claims `name` and `typ`. -/
def claimOK (kv : String × Value) : Bool :=
  if kv.1 = "exp" ∨ kv.1 = "iat" ∨ kv.1 = "nbf" then
    match kv.2 with
    | .int n => n.natAbs ≤ 2 ^ 53
    | _ => false
  else if kv.1 = "iss" ∨ kv.1 = "sub" ∨ kv.1 = "jti" ∨ kv.1 = "aud" ∨ kv.1 = "name" ∨
      kv.1 = "typ" then
    match kv.2 with
    | .str _ => true
    | _ => false
  else false

/-- The string claim `k` of the map, the zero value when absent. -/
def MapClaims.strClaim (m : MapClaims) (k : String) : String :=
  match m.lookup k with
  | some (.str s) => s
  | _ => ""

/-- The date claim `k` of the map as a `*NumericDate`: `time.Unix(n, 0)`. -/
def MapClaims.dateClaim (m : MapClaims) (k : String) : Option Int :=
  match m.lookup k with
  | some (.int n) => some (timeOfUnix n)
  | _ => .none

/-- The `RegisteredClaims` that the JSON of a claims map decodes to: `aud`, a
`ClaimStrings`, decodes from a single string to a one-element list. -/
def MapClaims.toRegistered (m : MapClaims) : RegisteredClaims :=
  { Issuer := m.strClaim "iss"
    Subject := m.strClaim "sub"
    Audience := match m.lookup "aud" with
      | some (.str s) => [s]
      | _ => []
    ExpiresAt := m.dateClaim "exp"
    NotBefore := m.dateClaim "nbf"
    IssuedAt := m.dateClaim "iat"
    ID := m.strClaim "jti" }

/-- What the embedding assumes of the codecs of the token library. -/
structure JWT.Lawful (J : JWT) : Prop where
  /-- A segment is base64url text. -/
  segment_alphabet : ∀ m c, c ∈ (J.encodeSegment m).data → isBase64URL c = true
  /-- Signing with an HMAC method and a `[]byte` key does not fail. -/
  sign_ok : ∀ (m : SigningMethod) s key, m.isHMAC = true → ∃ sig, J.hmacSign m s key = .ok sig
  /-- A signature is base64url text. -/
  sign_alphabet : ∀ m s key sig, J.hmacSign m s key = .ok sig →
    ∀ c, c ∈ sig.data → isBase64URL c = true
  /-- A signature verifies under the key and the method it was made with. -/
  verify_sign : ∀ m s key sig, J.hmacSign m s key = .ok sig → J.hmacVerify m s sig key = true
  /-- A header of strings decodes to the same map. -/
  decodeHeader_encode : ∀ m : MapClaims, (m.map Prod.fst).Nodup →
    (∀ kv, kv ∈ m → ∃ s, kv.2 = .str s) →
    ∃ h, J.decodeHeader (J.encodeSegment m) = some h ∧ ∀ k, h.lookup k = m.lookup k
  /-- A claims map of registered and private claims decodes to its `RegisteredClaims`. -/
  decodeClaims_encode : ∀ m : MapClaims, (m.map Prod.fst).Nodup →
    (∀ kv, kv ∈ m → claimOK kv = true) →
    J.decodeClaims (J.encodeSegment m) = some m.toRegistered

/-! ## A reference codec

A concrete `JWT` that satisfies the laws: a segment is the list of numbers that
describes the map, each number in decimal followed by `_`. It stands for
base64url over JSON, which obeys the same laws, and shows the laws consistent. -/

/-- A number in decimal, closed by `_`. -/
def encNat (n : Nat) : List Char := (formatNat n).data ++ ['_']

/-- A list of numbers, each closed by `_`. -/
def encNats : List Nat → List Char
  | [] => []
  | n :: ns => encNat n ++ encNats ns

/-- Inverse of `encNats`; `cur` is the number being read. -/
def decNatsAux : List Char → Option Nat → Option (List Nat)
  | [], cur => if cur.isSome then .none else some []
  | c :: cs, cur =>
    if c = '_' then
      match cur with
      | some n => (decNatsAux cs .none).map (n :: ·)
      | .none => .none
    else if 48 ≤ c.toNat ∧ c.toNat ≤ 57 then
      decNatsAux cs (some (cur.getD 0 * 10 + (c.toNat - 48)))
    else .none

/-- Inverse of `encNats`. -/
def decNats (l : List Char) : Option (List Nat) := decNatsAux l .none

/-- A string as numbers: its length, then its characters. -/
def encString (s : String) : List Nat := s.data.length :: s.data.map Char.toNat

/-- A value as numbers: a tag, then the contents. -/
def encValue : Value → List Nat
  | .str s => 0 :: encString s
  | .int i => [1, if i < 0 then 1 else 0, i.natAbs]
  | .other => [2]

/-- The entries of a map as numbers. -/
def encEntries : MapClaims → List Nat
  | [] => []
  | (k, v) :: rest => encString k ++ encValue v ++ encEntries rest

/-- A map as numbers: the number of entries, then the entries. -/
def encMap (m : MapClaims) : List Nat := m.length :: encEntries m

/-- Inverse of `encString`, with the numbers left over. -/
def decString : List Nat → Option (String × List Nat)
  | [] => .none
  | n :: rest =>
    if n ≤ rest.length then some (String.mk ((rest.take n).map Char.ofNat), rest.drop n)
    else .none

/-- Inverse of `encValue`, with the numbers left over. -/
def decValue : List Nat → Option (Value × List Nat)
  | 0 :: rest => (decString rest).map (fun p => (Value.str p.1, p.2))
  | 1 :: sign :: n :: rest => some (Value.int (if sign = 1 then -(n : Int) else (n : Int)), rest)
  | 2 :: rest => some (Value.other, rest)
  | _ => .none

/-- Inverse of `encEntries` for a given number of entries. -/
def decEntries : Nat → List Nat → Option MapClaims
  | 0, _ => some []
  | count + 1, l =>
    match decString l with
    | .none => .none
    | some (k, l1) =>
      match decValue l1 with
      | .none => .none
      | some (v, l2) => (decEntries count l2).map ((k, v) :: ·)

/-- Inverse of `encMap`. -/
def decMap : List Nat → Option MapClaims
  | [] => .none
  | count :: rest => decEntries count rest

/-- The reference signature of a signing string: a keyed checksum of the
method, the key and the string. -/
def refSign (m : SigningMethod) (s key : String) : String :=
  String.mk (encNats
    [(m.Alg ++ key ++ s).data.foldl (fun acc c => (acc * 31 + c.toNat) % 18446744073709551616) 7])

/-- The reference codec. -/
def refJWT : JWT :=
  { encodeSegment := fun m => String.mk (encNats (encMap m))
    decodeHeader := fun seg => (decNats seg.data).bind decMap
    decodeClaims := fun seg =>
      ((decNats seg.data).bind decMap).map MapClaims.toRegistered
    hmacSign := fun m s key => .ok (refSign m s key)
    hmacVerify := fun m s sig key => sig == refSign m s key
    verifyFirst := true }

/-- The reference codec with the order of checks of the releases before v4.5.0. -/
def refJWTOld : JWT := { refJWT with verifyFirst := false }

/-- The configuration of `main.go`, with its default flags. -/
def defaultAuth : auth :=
  { Issuer := "example.com"
    Audience := "example.com"
    Secret := "verysecret"
    TokenExpiry := 15 * 60 * Second
    RefreshExpiry := 24 * 3600 * Second
    CookiePath := "/"
    CookieName := "Host-refresh_token"
    CookieDomain := "localhost" }

/-! ## Concrete inputs -/

/-- A token signed with the reference codec: `SignedString` of a fresh HS256
token with the claims `m`, under `key`. -/
def refToken (m : MapClaims) (key : String) : String :=
  match SignedString refJWT ((New .HS256).1, m, .HS256) key with
  | .ok t => t
  | .error _ => ""

/-- The configuration of `main.go` with an access lifetime of zero. -/
def zeroLifetimeAuth : auth := { defaultAuth with TokenExpiry := 0 }

/-- A user. -/
def sampleUser : jwtUser := { ID := 7, FirstName := "Ada", LastName := "Lovelace" }

/-- Claims of an access token of `defaultAuth`, expiring at second 2000, with
the type tag `typ`. -/
def typedClaims (typ : String) : MapClaims :=
  [("sub", .str "7"), ("aud", .str "example.com"), ("iss", .str "example.com"),
    ("iat", .int 1000), ("typ", .str typ), ("exp", .int 2000)]

/-- A three-part token of the reference codec whose header declares the
algorithm `none`, with the claims of `typedClaims "JWT"` and an empty signature. -/
def noneToken : String :=
  JoinDot [JoinDot [refJWT.encodeSegment [("typ", .str "JWT"), ("alg", .str "none")],
    refJWT.encodeSegment (typedClaims "JWT")], ""]

/-- Claims with the issuer of `defaultAuth`, issued at second 1000, expired at second 999. -/
def expiredClaims : MapClaims :=
  [("sub", .str "7"), ("iss", .str "example.com"), ("iat", .int 900), ("exp", .int 999)]

/-- Claims with the issuer of `defaultAuth` that expire at second 1899: second
1000 plus the access lifetime of `defaultAuth`, less one second. -/
def liveClaims : MapClaims :=
  [("sub", .str "7"), ("iss", .str "example.com"), ("iat", .int 1000), ("exp", .int 1899)]

/-- Unexpired claims with the issuer of `defaultAuth`, not valid before second 5000. -/
def notYetValidClaims : MapClaims :=
  [("sub", .str "7"), ("iss", .str "example.com"), ("iat", .int 1000), ("nbf", .int 5000),
    ("exp", .int 9000)]

/-- Unexpired claims with another issuer, issued at second 1000. -/
def wrongIssuerClaims : MapClaims :=
  [("sub", .str "7"), ("iss", .str "evil.example"), ("iat", .int 1000), ("exp", .int 2000)]

/-- Unexpired claims with another issuer, not valid before second 5000. -/
def wrongIssuerNotYetValidClaims : MapClaims :=
  [("sub", .str "7"), ("iss", .str "evil.example"), ("iat", .int 1000), ("nbf", .int 5000),
    ("exp", .int 9000)]

/-- Unexpired claims with the issuer of `defaultAuth` and another audience. -/
def otherAudienceClaims : MapClaims :=
  [("sub", .str "7"), ("aud", .str "other.example"), ("iss", .str "example.com"),
    ("iat", .int 1000), ("exp", .int 2000)]

/-- The configuration of `main.go` with an access lifetime of one second and a half. -/
def fractionalAuth : auth := { defaultAuth with TokenExpiry := 1500000000 }

/-- The configuration of `main.go` with a refresh lifetime of one second and a half. -/
def fractionalRefreshAuth : auth := { defaultAuth with RefreshExpiry := 1500000000 }

/-- A user with a negative id. -/
def negativeUser : jwtUser := { ID := -1, FirstName := "Ada", LastName := "Lovelace" }

/-! ## `cmd/api/handlers.go`: the refresh handler -/

/-- Go `models.User`, without its two time stamps. -/
structure User where
  ID : Int
  FirstName : String
  LastName : String
  Email : String
  Password : String
  deriving DecidableEq, Repr

/-- The type `application` of `main.go`, the fields the refresh handler reads:
the session configuration, the signing secret, and the identity lookup
`DB.UserByID` of the repository, `none` being a non-nil error. -/
structure application where
  auth : auth
  JWTSecret : String
  UserByID : Int → Option User

/-- A cookie of a request as `r.Cookies()` yields it: a name and a value. -/
structure RequestCookie where
  Name : String
  Value : String
  deriving DecidableEq, Repr

/-- Go `http.StatusOK`. -/
def StatusOK : Nat := 200
/-- Go `http.StatusUnauthorized`. -/
def StatusUnauthorized : Nat := 401
/-- Go `http.StatusInternalServerError`. -/
def StatusInternalServerError : Nat := 500

/-- What the refresh handler does to its collaborators, one entry for each call:
* `errorJSON msg status` is `app.errorJSON(w, errors.New(msg), status)`;
* `writeJSON status pair` is `app.writeJSON(w, status, pair)`;
* `SetCookie c` is `http.SetCookie(w, c)`;
* `UserByID id` is `app.DB.UserByID(id)`;
* `GenerateTokenPair u` is `app.auth.GenerateTokenPair(&u)`.
The helpers `errorJSON` and `writeJSON` are not among the sources: their calls
are recorded with their arguments and their bodies are not embedded. -/
inductive Effect where
  | errorJSON (msg : String) (status : Nat)
  | writeJSON (status : Nat) (pair : tokenPairs)
  | SetCookie (c : Cookie)
  | UserByID (id : Int)
  | GenerateTokenPair (u : jwtUser)
  deriving DecidableEq, Repr

/-- The key function that `refreshToken` hands to the parser: the secret, for
every signing method. -/
def application.refreshKeyFunc (app : application) (_ : Token) : Except String String :=
  .ok app.JWTSecret

/-- The loop of `application.refreshToken` over the cookies that are left;
`clock n` is the reading of the `n`-th call of `time.Now()`, `n` the number of
readings taken so far, `done` the calls made so far. A `return` of the source
ends the loop. -/
def application.refreshTokenLoop (J : JWT) (app : application) (clock : Nat → Int) :
    List RequestCookie → Nat → List Effect → List Effect
  | [], _, done => done
  | c :: cs, n, done =>
    if c.Name = app.auth.CookieName then
      let refreshToken := c.Value
      match ParseWithClaims J (clock n) refreshToken app.refreshKeyFunc with
      | (_, some _) => done ++ [.errorJSON "unauthorized" StatusUnauthorized]
      | (parsed, .none) =>
        let claims : claims := match parsed with
          | some t => t.Claims
          | .none => claims.zero
        match Atoi claims.Subject with
        | .none => done ++ [.errorJSON "unknown user" StatusUnauthorized]
        | some userID =>
          match app.UserByID userID with
          | .none => done ++ [.UserByID userID, .errorJSON "unknown user" StatusUnauthorized]
          | some user =>
            let u : jwtUser := ⟨user.ID, user.FirstName, user.LastName⟩
            match app.auth.GenerateTokenPair J u (clock (n + 1)) (clock (n + 2)) (clock (n + 3))
                (clock (n + 4)) with
            | (_, some _) =>
              done ++ [.UserByID userID, .GenerateTokenPair u,
                .errorJSON "error generating tokens" StatusInternalServerError]
            | (pair, .none) =>
              application.refreshTokenLoop J app clock cs (n + 6)
                (done ++ [.UserByID userID, .GenerateTokenPair u,
                  .SetCookie (app.auth.GetRefreshCookie (clock (n + 5)) pair.RefresToken),
                  .writeJSON StatusOK pair])
    else application.refreshTokenLoop J app clock cs n done

/-- The handler `application.refreshToken` on a request whose cookies are
`cookies` (the value of `r.Cookies()`): the calls it makes, in order. -/
def application.refreshToken (J : JWT) (app : application) (clock : Nat → Int)
    (cookies : List RequestCookie) : List Effect :=
  application.refreshTokenLoop J app clock cookies 0 []

/-- The application of `main.go` with its default flags and an empty user table. -/
def defaultApp : application :=
  { auth := defaultAuth, JWTSecret := "verysecret", UserByID := fun _ => .none }

/-- The application of `main.go` with a user table that holds `sampleUser`. -/
def sampleApp : application :=
  { auth := defaultAuth, JWTSecret := "verysecret",
    UserByID := fun id =>
      if id = 7 then some ⟨7, "Ada", "Lovelace", "ada@example.com", "hash"⟩ else .none }

/-- The configuration of `main.go` with an empty issuer. -/
def emptyIssuerAuth : auth := { defaultAuth with Issuer := "" }

/-- The token pair that `defaultAuth` issues to `sampleUser` at second 1000 with
the reference codec. -/
def samplePair : tokenPairs :=
  (defaultAuth.GenerateTokenPair refJWT sampleUser (timeOfUnix 1000) (timeOfUnix 1000)
    (timeOfUnix 1000) (timeOfUnix 1000)).1

/-- The token pair that `emptyIssuerAuth` issues to `sampleUser` at second 1000
with the reference codec. -/
def emptyIssuerPair : tokenPairs :=
  (emptyIssuerAuth.GenerateTokenPair refJWT sampleUser (timeOfUnix 1000) (timeOfUnix 1000)
    (timeOfUnix 1000) (timeOfUnix 1000)).1

/-! # Theorems -/

/-! ## Strings -/

theorem isBase64URL_ne_dot (c : Char) (h : isBase64URL c = true) : c ≠ '.' := by
  rintro rfl
  revert h
  decide

theorem isBase64URL_not_space (c : Char) (h : isBase64URL c = true) : isSpace c = false := by
  simp only [isBase64URL, isSpace, Bool.or_eq_true, Bool.and_eq_true, decide_eq_true_eq,
    beq_iff_eq] at h ⊢
  simp only [Bool.or_eq_false_iff, Bool.and_eq_false_iff, decide_eq_false_iff_not, beq_eq_false_iff_ne]
  omega

theorem fieldsAux_noSpace (l cur : List Char) (h : ∀ c, c ∈ l → isSpace c = false) :
    fieldsAux l cur = if (cur.reverse ++ l).isEmpty then [] else [String.mk (cur.reverse ++ l)] := by
  induction l generalizing cur with
  | nil => simp [fieldsAux]
  | cons c cs ih =>
    have hc : isSpace c = false := h c (List.mem_cons_self _ _)
    have hcs : ∀ d, d ∈ cs → isSpace d = false := fun d hd => h d (List.mem_cons_of_mem _ hd)
    rw [fieldsAux]
    simp only [hc, Bool.false_eq_true, if_false]
    rw [ih (c :: cur) hcs]
    simp

theorem Fields_bearer (tok : String) (hne : tok.data ≠ [])
    (h : ∀ c, c ∈ tok.data → isSpace c = false) :
    Fields ("Bearer " ++ tok) = ["Bearer", tok] := by
  unfold Fields
  rw [String.data_append]
  have : ("Bearer ").data = ['B', 'e', 'a', 'r', 'e', 'r', ' '] := rfl
  rw [this]
  simp only [List.cons_append, List.nil_append, fieldsAux]
  have hB : isSpace 'B' = false := by decide
  have he : isSpace 'e' = false := by decide
  have ha : isSpace 'a' = false := by decide
  have hr : isSpace 'r' = false := by decide
  have hs : isSpace ' ' = true := by decide
  simp only [hB, he, ha, hr, hs, Bool.false_eq_true, if_false, if_true]
  have e : ([] : List Char).append tok.data = tok.data := rfl
  rw [e, fieldsAux_noSpace _ _ h]
  simp [hne]

theorem splitAux_noSep (sep : Char) (l cur : List Char) (h : ∀ c, c ∈ l → c ≠ sep) :
    splitAux sep l cur = [String.mk (cur.reverse ++ l)] := by
  induction l generalizing cur with
  | nil => simp [splitAux]
  | cons c cs ih =>
    have hc : c ≠ sep := h c (List.mem_cons_self _ _)
    rw [splitAux]
    simp only [hc, if_false]
    rw [ih (c :: cur) (fun d hd => h d (List.mem_cons_of_mem _ hd))]
    simp

theorem splitAux_append (sep : Char) (l rest cur : List Char) (h : ∀ c, c ∈ l → c ≠ sep) :
    splitAux sep (l ++ sep :: rest) cur = String.mk (cur.reverse ++ l) :: splitAux sep rest [] := by
  induction l generalizing cur with
  | nil => simp [splitAux]
  | cons c cs ih =>
    have hc : c ≠ sep := h c (List.mem_cons_self _ _)
    rw [List.cons_append, splitAux]
    simp only [hc, if_false]
    rw [ih (c :: cur) (fun d hd => h d (List.mem_cons_of_mem _ hd))]
    simp

theorem SplitDot_three (a b c : String) (ha : ∀ x, x ∈ a.data → x ≠ '.')
    (hb : ∀ x, x ∈ b.data → x ≠ '.') (hc : ∀ x, x ∈ c.data → x ≠ '.') :
    SplitDot (JoinDot [JoinDot [a, b], c]) = [a, b, c] := by
  unfold SplitDot
  simp only [JoinDot, String.data_append]
  simp only [List.append_assoc, List.cons_append, List.nil_append]
  rw [splitAux_append _ _ _ _ ha, splitAux_append _ _ _ _ hb, splitAux_noSep _ _ _ hc]
  simp

/-! ## Decimal digits -/

theorem digitChar_toNat (d : Nat) : (digitChar d).toNat = 48 + d % 10 := by
  unfold digitChar
  have h : d % 10 < 10 := Nat.mod_lt _ (by decide)
  generalize d % 10 = r at h
  interval_cases r <;> rfl

theorem parseDigits_append (xs : List Char) (c : Char) (acc : Nat) :
    parseDigits (xs ++ [c]) acc =
      (parseDigits xs acc).bind (fun v =>
        if 48 ≤ c.toNat ∧ c.toNat ≤ 57 then some (v * 10 + (c.toNat - 48)) else none) := by
  induction xs generalizing acc with
  | nil => simp [parseDigits]
  | cons x xs ih =>
    simp only [List.cons_append, parseDigits]
    split
    · exact ih _
    · rfl

theorem parseDigits_natDigitsRev (fuel n : Nat) (h : n < fuel) :
    parseDigits (natDigitsRev fuel n).reverse 0 = some n := by
  induction fuel generalizing n with
  | zero => omega
  | succ f ih =>
    unfold natDigitsRev
    split
    · rename_i h10
      simp only [List.reverse_cons, List.reverse_nil, List.nil_append, parseDigits, digitChar_toNat]
      have : n % 10 = n := Nat.mod_eq_of_lt h10
      simp [this]
      omega
    · rename_i h10
      rw [List.reverse_cons, parseDigits_append, ih (n / 10) (by omega)]
      simp only [Option.some_bind, digitChar_toNat]
      have : 48 ≤ 48 + n % 10 ∧ 48 + n % 10 ≤ 57 := by omega
      simp only [this, and_self, if_true]
      congr 1
      omega

theorem parseDigits_formatNat (n : Nat) : parseDigits (formatNat n).data 0 = some n := by
  unfold formatNat
  exact parseDigits_natDigitsRev (n + 1) n (Nat.lt_succ_self n)

theorem natDigitsRev_ne_nil (fuel n : Nat) : natDigitsRev (fuel + 1) n ≠ [] := by
  unfold natDigitsRev
  split <;> simp

theorem natDigitsRev_digits (fuel n : Nat) (c : Char) (h : c ∈ natDigitsRev fuel n) :
    48 ≤ c.toNat ∧ c.toNat ≤ 57 := by
  induction fuel generalizing n with
  | zero => simp [natDigitsRev] at h
  | succ f ih =>
    unfold natDigitsRev at h
    split at h
    · simp only [List.mem_singleton] at h
      subst h
      rw [digitChar_toNat]; omega
    · simp only [List.mem_cons] at h
      rcases h with h | h
      · subst h
        rw [digitChar_toNat]; omega
      · exact ih _ h

theorem formatNat_ne_nil (n : Nat) : (formatNat n).data ≠ [] := by
  unfold formatNat
  simp only [ne_eq, List.reverse_eq_nil_iff]
  exact natDigitsRev_ne_nil n n

theorem formatNat_digits (n : Nat) (c : Char) (h : c ∈ (formatNat n).data) :
    48 ≤ c.toNat ∧ c.toNat ≤ 57 := by
  unfold formatNat at h
  simp only [List.mem_reverse] at h
  exact natDigitsRev_digits _ _ _ h

theorem Atoi_Sprint (i : Int) (h1 : -(2 ^ 63 : Int) ≤ i) (h2 : i < 2 ^ 63) :
    Atoi (Sprint i) = some i := by
  unfold Atoi Sprint
  by_cases hi : i < 0
  · simp only [hi, if_true, String.data_append]
    have : ("-").data = ['-'] := rfl
    simp only [this, List.cons_append, List.nil_append, parseDigits_formatNat]
    have hne := formatNat_ne_nil i.natAbs
    simp only [List.isEmpty_iff, hne, if_false]
    have hv : -((i.natAbs : Nat) : Int) = i := by omega
    rw [hv, if_pos ⟨h1, h2⟩]
  · simp only [hi, if_false]
    have hne := formatNat_ne_nil i.natAbs
    have hv : ((i.natAbs : Nat) : Int) = i := by omega
    match hd : (formatNat i.natAbs).data with
    | [] => exact absurd hd hne
    | c :: cs =>
      have hc := formatNat_digits i.natAbs c (by rw [hd]; exact List.mem_cons_self _ _)
      have hm : c ≠ '-' := by rintro rfl; revert hc; decide
      have hp : c ≠ '+' := by rintro rfl; revert hc; decide
      have hpd := parseDigits_formatNat i.natAbs
      rw [hd] at hpd
      have h3 : (-9223372036854775808 : Int) ≤ i := by omega
      have h4 : i < 9223372036854775808 := by omega
      simp [hm, hp, hpd, hv, h3, h4]

/-! ## Lemmas on `float64` rounding -/

theorem bitLen_le (fuel n j : Nat) (h : n < 2 ^ j) : bitLen fuel n ≤ j := by
  induction fuel generalizing n j with
  | zero => simp [bitLen]
  | succ f ih =>
    unfold bitLen
    split
    · omega
    · rename_i hn
      cases j with
      | zero => simp at h; omega
      | succ j =>
        have : n / 2 < 2 ^ j := by
          rw [Nat.pow_succ] at h; omega
        have := ih (n / 2) j this
        omega

theorem bitLen_ge (fuel n j : Nat) (h : 2 ^ j ≤ n) (hf : j < fuel) : j + 1 ≤ bitLen fuel n := by
  induction fuel generalizing n j with
  | zero => omega
  | succ f ih =>
    unfold bitLen
    have hpos : 0 < 2 ^ j := Nat.pow_pos (by decide)
    split
    · omega
    · cases j with
      | zero => omega
      | succ j =>
        have : 2 ^ j ≤ n / 2 := by
          rw [Nat.pow_succ] at h; omega
        have := ih (n / 2) j this (by omega)
        omega

theorem binExponent_le (p q : Nat) :
    binExponent p q ≤ (bitLen (p + 1) p : Int) - (bitLen (q + 1) q : Int) := by
  unfold binExponent
  simp only
  split <;> omega

/-- Rounding is exact on a quotient that is an integer of at most 53 bits. -/
theorem roundF64_exact (p q : Nat) (hq : 0 < q) (hd : q ∣ p)
    (hb : bitLen (p + 1) p ≤ bitLen (q + 1) q + 52) :
    (roundF64 p q).num = p / q * (roundF64 p q).den := by
  unfold roundF64
  split
  · rename_i h0
    subst h0
    simp [F64.num, F64.den]
  · have hk : (0 : Int) ≤ 52 - binExponent p q := by
      have := binExponent_le p q
      omega
    obtain ⟨c, rfl⟩ := hd
    simp only [hk, if_true, F64.num, F64.den]
    have h1 : q * c * 2 ^ (52 - binExponent (q * c) q).toNat % q = 0 := by
      rw [Nat.mul_assoc]; exact Nat.mul_mod_right _ _
    have h2 : q * c * 2 ^ (52 - binExponent (q * c) q).toNat / q
        = c * 2 ^ (52 - binExponent (q * c) q).toNat := by
      rw [Nat.mul_assoc]; exact Nat.mul_div_cancel_left _ hq
    rw [h1, h2, Nat.mul_div_cancel_left _ hq]
    simp [hq]

theorem F64.den_pos (f : F64) : 0 < f.den := by
  unfold F64.den
  split
  · exact Nat.pow_pos (by decide)
  · decide

theorem F64.den_pow (f : F64) : ∃ j, f.den = 2 ^ j := by
  unfold F64.den
  split
  · exact ⟨_, rfl⟩
  · exact ⟨0, rfl⟩

theorem roundF64_zero (q : Nat) : roundF64 0 q = ⟨0, 0⟩ := by
  simp [roundF64]

theorem secondsTrunc_whole (l : Nat) (h : l < 2 ^ 53) : secondsTrunc (l * 1000000000) = l := by
  unfold secondsTrunc
  have e1 : l * 1000000000 / 1000000000 = l := Nat.mul_div_cancel _ (by decide)
  have e2 : l * 1000000000 % 1000000000 = 0 := Nat.mul_mod_left _ _
  simp only [e1, e2, roundF64_zero]
  have hn : (⟨0, 0⟩ : F64).num = 0 := by decide
  have hd : (⟨0, 0⟩ : F64).den = 1 := by decide
  simp only [hn, hd, roundF64_zero, Nat.zero_mul, Nat.add_zero, Nat.mul_one]
  have hsec : (roundF64 l 1).num = l * (roundF64 l 1).den := by
    have hb : bitLen (l + 1) l ≤ bitLen (1 + 1) 1 + 52 := by
      have := bitLen_le (l + 1) l 53 h
      have h1 : bitLen (1 + 1) 1 = 1 := by decide
      omega
    have := roundF64_exact l 1 (by decide) (one_dvd l) hb
    simpa using this
  obtain ⟨j, hj⟩ := F64.den_pow (roundF64 l 1)
  rw [hsec, hj]
  have hpos : 0 < 2 ^ j := Nat.pow_pos (by decide)
  have hb : bitLen (l * 2 ^ j + 1) (l * 2 ^ j) ≤ bitLen (2 ^ j + 1) (2 ^ j) + 52 := by
    have h1 : l * 2 ^ j < 2 ^ (53 + j) := by
      rw [Nat.pow_add]; exact Nat.mul_lt_mul_of_pos_right h hpos
    have h2 := bitLen_le (l * 2 ^ j + 1) (l * 2 ^ j) (53 + j) h1
    have h3 := bitLen_ge (2 ^ j + 1) (2 ^ j) j (le_refl _) (by
      have := Nat.lt_two_pow j
      omega)
    omega
  have key := roundF64_exact (l * 2 ^ j) (2 ^ j) hpos (Dvd.intro_left l rfl) hb
  rw [key, Nat.mul_div_cancel _ hpos]
  exact Nat.mul_div_cancel _ (F64.den_pos _)

theorem intSeconds_whole (l : Int) (h1 : -(2 ^ 53 : Int) < l) (h2 : l < 2 ^ 53) :
    intSeconds (l * Second) = l := by
  unfold intSeconds Second
  have hn : (l * 1000000000).natAbs = l.natAbs * 1000000000 := by
    rw [Int.natAbs_mul]; rfl
  have hl : l.natAbs < 2 ^ 53 := by omega
  rw [hn, secondsTrunc_whole _ hl]
  split <;> omega

/-! ## The reference codec obeys the laws -/

theorem decNatsAux_digits (ds rest : List Char) (cur : Option Nat) (v : Nat)
    (hd : ∀ c, c ∈ ds → 48 ≤ c.toNat ∧ c.toNat ≤ 57) (hne : ds ≠ [])
    (hv : parseDigits ds (cur.getD 0) = some v) :
    decNatsAux (ds ++ '_' :: rest) cur = (decNatsAux rest none).map (v :: ·) := by
  induction ds generalizing cur with
  | nil => exact absurd rfl hne
  | cons c cs ih =>
    have hc := hd c (List.mem_cons_self _ _)
    have hu : c ≠ '_' := by rintro rfl; revert hc; decide
    simp only [List.cons_append, decNatsAux, hu, if_false, hc, and_self, if_true]
    simp only [parseDigits, hc, and_self, if_true] at hv
    cases cs with
    | nil =>
      simp only [parseDigits, Option.some.injEq] at hv
      subst hv
      simp [decNatsAux]
    | cons d ds =>
      exact ih (some (cur.getD 0 * 10 + (c.toNat - 48)))
        (fun x hx => hd x (List.mem_cons_of_mem _ hx)) (by simp) (by simpa using hv)

theorem decNats_encNats (l : List Nat) : decNats (encNats l) = some l := by
  unfold decNats
  induction l with
  | nil => simp [encNats, decNatsAux]
  | cons n ns ih =>
    unfold encNats encNat
    rw [List.append_assoc, List.singleton_append,
      decNatsAux_digits _ _ none n (formatNat_digits n) (formatNat_ne_nil n)
        (parseDigits_formatNat n), ih]
    rfl

theorem encNats_alphabet (l : List Nat) (c : Char) (h : c ∈ encNats l) : isBase64URL c = true := by
  induction l with
  | nil => simp [encNats] at h
  | cons n ns ih =>
    unfold encNats encNat at h
    simp only [List.mem_append, List.mem_singleton] at h
    rcases h with (h | h) | h
    · have := formatNat_digits n c h
      simp only [isBase64URL, Bool.or_eq_true, Bool.and_eq_true, decide_eq_true_eq, beq_iff_eq]
      omega
    · subst h; decide
    · exact ih h

theorem decString_encString (s : String) (rest : List Nat) :
    decString (encString s ++ rest) = some (s, rest) := by
  unfold encString decString
  simp only [List.cons_append, List.length_append, List.length_map, Nat.le_add_right, if_true]
  have h1 : List.take s.data.length (List.map Char.toNat s.data ++ rest)
      = List.map Char.toNat s.data := by
    rw [List.take_append_of_le_length (by simp)]
    rw [List.take_of_length_le (by simp)]
  have h2 : List.drop s.data.length (List.map Char.toNat s.data ++ rest) = rest := by
    rw [List.drop_append_of_le_length (by simp)]
    rw [List.drop_of_length_le (by simp)]
    rfl
  rw [h1, h2]
  have h3 : List.map Char.ofNat (List.map Char.toNat s.data) = s.data := by
    rw [List.map_map]
    conv_rhs => rw [← List.map_id s.data]
    apply List.map_congr_left
    intro c _
    simp [Char.ofNat_toNat]
  rw [h3]

theorem decValue_encValue (v : Value) (rest : List Nat) :
    decValue (encValue v ++ rest) = some (v, rest) := by
  cases v with
  | str s =>
    simp only [encValue, List.cons_append, decValue, decString_encString]
    rfl
  | int i =>
    simp only [encValue, List.cons_append, List.nil_append, decValue]
    by_cases hi : i < 0
    · simp only [hi, if_true]
      have : -((i.natAbs : Nat) : Int) = i := by omega
      rw [this]
    · simp only [hi, if_false]
      have : ((i.natAbs : Nat) : Int) = i := by omega
      simp [this]
  | other => simp [encValue, decValue]

theorem decEntries_encEntries (m : MapClaims) (rest : List Nat) :
    decEntries m.length (encEntries m ++ rest) = some m := by
  induction m with
  | nil => simp [decEntries]
  | cons kv m ih =>
    obtain ⟨k, v⟩ := kv
    simp only [encEntries, List.length_cons, decEntries, List.append_assoc, decString_encString,
      decValue_encValue, ih]
    rfl

theorem decMap_encMap (m : MapClaims) : decMap (encMap m) = some m := by
  unfold encMap decMap
  have := decEntries_encEntries m []
  simpa using this

theorem refJWT_decodeHeader (m : MapClaims) :
    refJWT.decodeHeader (refJWT.encodeSegment m) = some m := by
  simp [refJWT, decNats_encNats, decMap_encMap]

theorem refJWT_decodeClaims (m : MapClaims) :
    refJWT.decodeClaims (refJWT.encodeSegment m) = some m.toRegistered := by
  simp [refJWT, decNats_encNats, decMap_encMap]

theorem refJWT_lawful : refJWT.Lawful where
  segment_alphabet := fun m c h => encNats_alphabet (encMap m) c h
  sign_ok := fun m s key _ => ⟨refSign m s key, rfl⟩
  sign_alphabet := by
    intro m s key sig h c hc
    simp only [refJWT, Except.ok.injEq] at h
    subst h
    exact encNats_alphabet _ c hc
  verify_sign := by
    intro m s key sig h
    simp only [refJWT, Except.ok.injEq] at h
    subst h
    simp [refJWT]
  decodeHeader_encode := fun m _ _ => ⟨m, refJWT_decodeHeader m, fun _ => rfl⟩
  decodeClaims_encode := fun m _ _ => refJWT_decodeClaims m

theorem refJWTOld_lawful : refJWTOld.Lawful where
  segment_alphabet := refJWT_lawful.segment_alphabet
  sign_ok := refJWT_lawful.sign_ok
  sign_alphabet := refJWT_lawful.sign_alphabet
  verify_sign := refJWT_lawful.verify_sign
  decodeHeader_encode := refJWT_lawful.decodeHeader_encode
  decodeClaims_encode := refJWT_lawful.decodeClaims_encode

/-! ## The verifier on a validly signed token -/

theorem Fields_empty : Fields "" = [] := by decide

theorem Valid_errors_ne_zero (rc : RegisteredClaims) (now : Int) (e : ValidationError)
    (h : rc.Valid now = some e) : e.Errors ≠ 0 := by
  unfold RegisteredClaims.Valid at h
  simp only at h
  split at h
  · exact absurd h (by simp)
  · rename_i hne
    simp only [Option.some.injEq] at h
    subst h
    exact hne

theorem signedClaims_parts (J : JWT) (key tok : String) (rc : RegisteredClaims)
    (h : signedClaims J key tok = some rc) :
    ∃ hs ps ss hd alg m, SplitDot tok = [hs, ps, ss] ∧ J.decodeHeader hs = some hd ∧
      hd.lookup "alg" = some (.str alg) ∧ GetSigningMethod alg = some m ∧ m.isHMAC = true ∧
      J.hmacVerify m (JoinDot [hs, ps]) ss key = true ∧ J.decodeClaims ps = some rc := by
  unfold signedClaims at h
  split at h
  · rename_i hs ps ss hsplit
    split at h
    · rename_i hd hdec
      split at h
      · rename_i alg halg
        split at h
        · rename_i m hm
          split at h
          · rename_i hcond
            simp only [Bool.and_eq_true] at hcond
            exact ⟨hs, ps, ss, hd, alg, m, hsplit, hdec, halg, hm, hcond.1, hcond.2, h⟩
          · exact absurd h (by simp)
        · exact absurd h (by simp)
      · exact absurd h (by simp)
    · exact absurd h (by simp)
  · exact absurd h (by simp)

/-- The outcome of the verifier on a well-formed header that carries a validly
signed token: it is decided by the time claims and the issuer alone. -/
theorem verify_signed (J : JWT) (a : auth) (now : Int) (w : Header) (r : Request)
    (tok : String) (rc : RegisteredClaims)
    (hf : Fields (r.Header.Get "Authorization") = ["Bearer", tok])
    (hs : signedClaims J a.Secret tok = some rc) :
    a.GetTokenFromHeaderAndVerify J now w r = (w.Add "Vary" "Authorization",
      match rc.Valid now with
      | some e =>
        if e.IsExpired then ⟨"", none, some (.text "expired token")⟩
        else ⟨"", none, some (.jwt e)⟩
      | none =>
        if rc.Issuer ≠ a.Issuer then ⟨"", none, some (.text "invalid issuer")⟩
        else ⟨tok, some ⟨rc⟩, none⟩) := by
  obtain ⟨hs', ps, ss, hd, alg, m, hsplit, hdec, halg, hm, hmac, hver, hcl⟩ :=
    signedClaims_parts J a.Secret tok rc hs
  have hne : r.Header.Get "Authorization" ≠ "" := by
    intro h0
    rw [h0, Fields_empty] at hf
    exact absurd hf (by simp)
  have hpu : ParseUnverified J tok =
      (some ⟨tok, some m, hd, ⟨rc⟩, "", false⟩, [hs', ps, ss], none) := by
    simp [ParseUnverified, hsplit, hdec, hcl, halg, hm]
  have hkey : a.keyFunc ⟨tok, some m, hd, ⟨rc⟩, "", false⟩ = .ok a.Secret := by
    simp [auth.keyFunc, hmac]
  have hsig : m.Verify J (JoinDot [hs', ps]) ss a.Secret = true := by
    simp [SigningMethod.Verify, hmac, hver]
  have hpw : ParseWithClaims J now tok a.keyFunc =
      match rc.Valid now with
      | some e => (some ⟨tok, some m, hd, ⟨rc⟩, ss, false⟩, some e)
      | none => (some ⟨tok, some m, hd, ⟨rc⟩, ss, true⟩, none) := by
    unfold ParseWithClaims
    rw [hpu]
    simp only [hkey, List.getD_cons_succ, List.getD_cons_zero, List.take_succ_cons, List.take_zero, hsig]
    cases hvf : J.verifyFirst
    · cases hv : rc.Valid now with
      | none => simp
      | some e => simp [Valid_errors_ne_zero rc now e hv]
    · cases hv : rc.Valid now with
      | none => simp
      | some e => simp
  unfold auth.GetTokenFromHeaderAndVerify
  simp only [hne, if_false, hf, List.length_cons, List.length_nil, List.getD_cons_zero,
    List.getD_cons_succ, hpw]
  cases hv : rc.Valid now with
  | none => by_cases hc : rc.Issuer = a.Issuer <;> simp [hc]
  | some e => by_cases hc : e.IsExpired = true <;> simp [hc]

/-! ## Tokens signed with a lawful codec -/

theorem Header_Get_requestWithAuthorization (h : String) :
    (requestWithAuthorization h).Header.Get "Authorization" = h := by
  simp [requestWithAuthorization, Header.Get, List.lookup]

theorem SignedString_ok (J : JWT) (hdr m : MapClaims) (meth : SigningMethod) (key tok : String)
    (h : SignedString J (hdr, m, meth) key = .ok tok) :
    ∃ sig, J.hmacSign meth (JoinDot [J.encodeSegment hdr, J.encodeSegment m]) key = .ok sig ∧
      tok = JoinDot [JoinDot [J.encodeSegment hdr, J.encodeSegment m], sig] := by
  unfold SignedString SigningString at h
  simp only at h
  split at h
  · exact absurd h (by simp)
  · rename_i sig hsig
    simp only [Except.ok.injEq] at h
    exact ⟨sig, hsig, h.symm⟩

theorem SignedString_succeeds (J : JWT) (hJ : J.Lawful) (hdr m : MapClaims) (key : String) :
    ∃ tok, SignedString J (hdr, m, .HS256) key = .ok tok := by
  obtain ⟨sig, hsig⟩ := hJ.sign_ok .HS256 (SigningString J hdr m) key rfl
  exact ⟨JoinDot [SigningString J hdr m, sig], by simp [SignedString, hsig]⟩

/-- A token signed by `SignedString` with a lawful codec is validly signed under
its key, carries the `RegisteredClaims` of its claims map, and is the second
field of the header `Bearer <token>`. -/
theorem signed_token (J : JWT) (hJ : J.Lawful) (m : MapClaims) (key tok : String)
    (hnd : (m.map Prod.fst).Nodup) (hok : ∀ kv, kv ∈ m → claimOK kv = true)
    (hs : SignedString J ((New .HS256).1, m, .HS256) key = .ok tok) :
    signedClaims J key tok = some m.toRegistered ∧
      Fields ("Bearer " ++ tok) = ["Bearer", tok] := by
  obtain ⟨sig, hsig, rfl⟩ := SignedString_ok J _ m .HS256 key tok hs
  have hA := hJ.segment_alphabet (New .HS256).1
  have hB := hJ.segment_alphabet m
  have hC := hJ.sign_alphabet _ _ _ _ hsig
  have hsplit := SplitDot_three (J.encodeSegment (New .HS256).1) (J.encodeSegment m) sig
    (fun x hx => isBase64URL_ne_dot x (hA x hx)) (fun x hx => isBase64URL_ne_dot x (hB x hx))
    (fun x hx => isBase64URL_ne_dot x (hC x hx))
  obtain ⟨hd, hdec, hlook⟩ := hJ.decodeHeader_encode (New .HS256).1 (by decide) (by
    intro kv hkv
    simp only [New, SigningMethod.Alg, List.mem_cons, List.mem_singleton, List.not_mem_nil,
      or_false] at hkv
    rcases hkv with rfl | rfl
    · exact ⟨_, rfl⟩
    · exact ⟨_, rfl⟩)
  have halg : hd.lookup "alg" = some (.str "HS256") := by
    rw [hlook]; decide
  have hm : GetSigningMethod "HS256" = some .HS256 := by decide
  have hver := hJ.verify_sign _ _ _ _ hsig
  constructor
  · unfold signedClaims
    rw [hsplit]
    simp only [hdec, halg, hm, SigningMethod.isHMAC, hver, Bool.and_self, if_true]
    exact hJ.decodeClaims_encode m hnd hok
  · apply Fields_bearer
    · simp [JoinDot]
    · intro c hc
      simp only [JoinDot, String.data_append, List.mem_append] at hc
      have hdot : ∀ c, c ∈ (".").data → isSpace c = false := by
        intro c hc
        have : c = '.' := by simpa using hc
        subst this; decide
      rcases hc with (((hc | hc) | hc) | hc) | hc
      · exact isBase64URL_not_space c (hA c hc)
      · exact hdot c hc
      · exact isBase64URL_not_space c (hB c hc)
      · exact hdot c hc
      · exact isBase64URL_not_space c (hC c hc)

theorem accessClaims_eq (a : auth) (user : jwtUser) (t1 t2 : Int) :
    a.accessClaims user t1 t2 =
      [("name", .str (user.FirstName ++ " " ++ user.LastName)), ("sub", .str (Sprint user.ID)),
        ("aud", .str a.Audience), ("iss", .str a.Issuer), ("iat", .int (Unix t1)),
        ("typ", .str "JWT"), ("exp", .int (Unix (t2 + a.TokenExpiry)))] := by
  simp [auth.accessClaims, New, MapClaims.set]

theorem refreshClaims_eq (a : auth) (user : jwtUser) (t3 t4 : Int) :
    a.refreshClaims user t3 t4 =
      [("sub", .str (Sprint user.ID)), ("iat", .int (Unix t3)),
        ("exp", .int (Unix (t4 + a.RefreshExpiry)))] := by
  simp [auth.refreshClaims, New, MapClaims.set]

theorem GenerateTokenPair_ok (J : JWT) (a : auth) (user : jwtUser) (t1 t2 t3 t4 : Int)
    (p : tokenPairs) (h : a.GenerateTokenPair J user t1 t2 t3 t4 = (p, none)) :
    SignedString J ((New .HS256).1, a.accessClaims user t1 t2, .HS256) a.Secret = .ok p.Token ∧
    SignedString J ((New .HS256).1, a.refreshClaims user t3 t4, .HS256) a.Secret
      = .ok p.RefresToken := by
  unfold auth.GenerateTokenPair at h
  simp only at h
  split at h
  · simp at h
  · rename_i tokA hA
    split at h
    · simp at h
    · rename_i tokR hR
      simp only [Prod.mk.injEq, and_true] at h
      subst h
      exact ⟨hA, hR⟩

theorem GenerateTokenPair_succeeds (J : JWT) (hJ : J.Lawful) (a : auth) (user : jwtUser)
    (t1 t2 t3 t4 : Int) : ∃ p, a.GenerateTokenPair J user t1 t2 t3 t4 = (p, none) := by
  obtain ⟨tokA, hA⟩ := SignedString_succeeds J hJ (New .HS256).1 (a.accessClaims user t1 t2) a.Secret
  obtain ⟨tokR, hR⟩ := SignedString_succeeds J hJ (New .HS256).1 (a.refreshClaims user t3 t4) a.Secret
  refine ⟨⟨tokA, tokR⟩, ?_⟩
  unfold auth.GenerateTokenPair
  simp only
  rw [show (New SigningMethod.HS256).2.2 = .HS256 from rfl, hA]
  simp only
  rw [hR]

/-! ## The verifier on a token signed by `SignedString` -/

theorem Valid_none (rc : RegisteredClaims) (now : Int)
    (hexp : ∀ e, rc.ExpiresAt = some e → now < e)
    (hiat : ∀ i, rc.IssuedAt = some i → i ≤ now)
    (hnbf : ∀ n, rc.NotBefore = some n → n ≤ now) : rc.Valid now = none := by
  unfold RegisteredClaims.Valid
  cases h1 : rc.ExpiresAt with
  | none =>
    cases h2 : rc.IssuedAt with
    | none =>
      cases h3 : rc.NotBefore with
      | none => simp
      | some n => simp [hnbf n h3]
    | some i =>
      cases h3 : rc.NotBefore with
      | none => simp [hiat i h2]
      | some n => simp [hiat i h2, hnbf n h3]
  | some e =>
    cases h2 : rc.IssuedAt with
    | none =>
      cases h3 : rc.NotBefore with
      | none => simp [hexp e h1]
      | some n => simp [hexp e h1, hnbf n h3]
    | some i =>
      cases h3 : rc.NotBefore with
      | none => simp [hexp e h1, hiat i h2]
      | some n => simp [hexp e h1, hiat i h2, hnbf n h3]

theorem Valid_expired (rc : RegisteredClaims) (now e : Int) (h : rc.ExpiresAt = some e)
    (hle : e ≤ now) : ∃ v, rc.Valid now = some v ∧ v.IsExpired = true := by
  have hlt : ¬ now < e := by omega
  unfold RegisteredClaims.Valid
  simp only [h, hlt, if_false]
  cases rc.IssuedAt with
  | none =>
    cases rc.NotBefore with
    | none => simp [ValidationErrorExpired, ValidationError.IsExpired]
    | some n =>
      by_cases hn : n ≤ now <;>
        simp [hn, ValidationErrorExpired, ValidationErrorNotValidYet, ValidationError.IsExpired]
  | some i =>
    by_cases hi : i ≤ now
    · cases rc.NotBefore with
      | none => simp [hi, ValidationErrorExpired, ValidationError.IsExpired]
      | some n =>
        by_cases hn : n ≤ now <;>
          simp [hi, hn, ValidationErrorExpired, ValidationErrorNotValidYet,
            ValidationError.IsExpired]
    · cases rc.NotBefore with
      | none =>
        simp [hi, ValidationErrorExpired, ValidationErrorIssuedAt, ValidationError.IsExpired]
      | some n =>
        by_cases hn : n ≤ now <;>
          simp [hi, hn, ValidationErrorExpired, ValidationErrorIssuedAt,
            ValidationErrorNotValidYet, ValidationError.IsExpired]

/-- The outcome of the verifier on `Bearer <token>` for a token that
`SignedString` made with a lawful codec under the configured secret. -/
theorem verify_signedString (J : JWT) (hJ : J.Lawful) (a : auth) (now : Int) (w : Header)
    (m : MapClaims) (tok : String)
    (hnd : (m.map Prod.fst).Nodup) (hok : ∀ kv, kv ∈ m → claimOK kv = true)
    (hs : SignedString J ((New .HS256).1, m, .HS256) a.Secret = .ok tok) :
    a.GetTokenFromHeaderAndVerify J now w (requestWithAuthorization ("Bearer " ++ tok)) =
      (w.Add "Vary" "Authorization",
        match m.toRegistered.Valid now with
        | some e =>
          if e.IsExpired then ⟨"", none, some (.text "expired token")⟩
          else ⟨"", none, some (.jwt e)⟩
        | none =>
          if m.toRegistered.Issuer ≠ a.Issuer then ⟨"", none, some (.text "invalid issuer")⟩
          else ⟨tok, some ⟨m.toRegistered⟩, none⟩) := by
  obtain ⟨h1, h2⟩ := signed_token J hJ m a.Secret tok hnd hok hs
  exact verify_signed J a now w _ tok _
    (by rw [Header_Get_requestWithAuthorization]; exact h2) h1

theorem refToken_signed (m : MapClaims) (key : String) :
    SignedString refJWT ((New .HS256).1, m, .HS256) key = .ok (refToken m key) := by
  simp [refToken, SignedString, refJWT]

theorem accessClaims_wellTyped (a : auth) (user : jwtUser) (t1 t2 : Int)
    (hiat : (Unix t1).natAbs ≤ 2 ^ 53) (hexp : (Unix (t2 + a.TokenExpiry)).natAbs ≤ 2 ^ 53) :
    ((a.accessClaims user t1 t2).map Prod.fst).Nodup ∧
      ∀ kv, kv ∈ a.accessClaims user t1 t2 → claimOK kv = true := by
  rw [accessClaims_eq]
  constructor
  · simp only [List.map]; decide
  · intro kv hkv
    simp only [List.mem_cons, List.mem_singleton, List.not_mem_nil, or_false] at hkv
    rcases hkv with rfl | rfl | rfl | rfl | rfl | rfl | rfl
    · rfl
    · rfl
    · rfl
    · rfl
    · simpa [claimOK] using hiat
    · rfl
    · simpa [claimOK] using hexp

theorem refreshClaims_wellTyped (a : auth) (user : jwtUser) (t3 t4 : Int)
    (hiat : (Unix t3).natAbs ≤ 2 ^ 53) (hexp : (Unix (t4 + a.RefreshExpiry)).natAbs ≤ 2 ^ 53) :
    ((a.refreshClaims user t3 t4).map Prod.fst).Nodup ∧
      ∀ kv, kv ∈ a.refreshClaims user t3 t4 → claimOK kv = true := by
  rw [refreshClaims_eq]
  constructor
  · simp only [List.map]; decide
  · intro kv hkv
    simp only [List.mem_cons, List.mem_singleton, List.not_mem_nil, or_false] at hkv
    rcases hkv with rfl | rfl | rfl
    · rfl
    · simpa [claimOK] using hiat
    · simpa [claimOK] using hexp

theorem accessClaims_toRegistered (a : auth) (user : jwtUser) (t1 t2 : Int) :
    (a.accessClaims user t1 t2).toRegistered =
      { Issuer := a.Issuer, Subject := Sprint user.ID, Audience := [a.Audience],
        ExpiresAt := some (timeOfUnix (Unix (t2 + a.TokenExpiry))), NotBefore := none,
        IssuedAt := some (timeOfUnix (Unix t1)), ID := "" } := by
  rw [accessClaims_eq]
  rfl

theorem refreshClaims_toRegistered (a : auth) (user : jwtUser) (t3 t4 : Int) :
    (a.refreshClaims user t3 t4).toRegistered =
      { Issuer := "", Subject := Sprint user.ID, Audience := [],
        ExpiresAt := some (timeOfUnix (Unix (t4 + a.RefreshExpiry))), NotBefore := none,
        IssuedAt := some (timeOfUnix (Unix t3)), ID := "" } := by
  rw [refreshClaims_eq]
  rfl

theorem timeOfUnix_Unix_le (t : Int) : timeOfUnix (Unix t) ≤ t := by
  unfold timeOfUnix Unix Second
  omega

theorem lt_timeOfUnix_Unix_add (t d : Int) (h : Second ≤ d) : t < timeOfUnix (Unix (t + d)) := by
  unfold timeOfUnix Unix Second at *
  omega

/-! # The claims -/

/-- C1, as amended. Round trip: for every lawful codec, every identity and every
configuration whose access lifetime is at least one second, at a clock reading
`now` within the range where dates are exact, `GenerateTokenPair` succeeds, and
for the pair `p` it returns, `GetTokenFromHeaderAndVerify` at the same instant on
the header `Bearer p.Token` succeeds, returns `p.Token` as the raw token and a
claim set whose subject is the decimal string of the id (parsed back by `Atoi`
to the id), whose issuer is the configured issuer and whose audience is the
one-element list of the configured audience. The claim set has no type. -/
theorem C1_round_trip (J : JWT) (hJ : J.Lawful) (a : auth) (user : jwtUser) (now : Int)
    (w : Header) (hid1 : -(2 ^ 63 : Int) ≤ user.ID) (hid2 : user.ID < 2 ^ 63)
    (hiat : (Unix now).natAbs ≤ 2 ^ 53) (hexp : (Unix (now + a.TokenExpiry)).natAbs ≤ 2 ^ 53)
    (hlife : Second ≤ a.TokenExpiry) :
    (∃ p, a.GenerateTokenPair J user now now now now = (p, none)) ∧
    ∀ p, a.GenerateTokenPair J user now now now now = (p, none) →
      ∃ c : claims,
        a.GetTokenFromHeaderAndVerify J now w (requestWithAuthorization ("Bearer " ++ p.Token))
          = (w.Add "Vary" "Authorization", ⟨p.Token, some c, none⟩) ∧
        c.Subject = Sprint user.ID ∧ Atoi c.Subject = some user.ID ∧
        c.Issuer = a.Issuer ∧ c.Audience = [a.Audience] := by
  refine ⟨GenerateTokenPair_succeeds J hJ a user now now now now, ?_⟩
  intro p hp
  obtain ⟨hA, _⟩ := GenerateTokenPair_ok J a user now now now now p hp
  obtain ⟨hnd, hok⟩ := accessClaims_wellTyped a user now now hiat hexp
  have hv := verify_signedString J hJ a now w _ p.Token hnd hok hA
  have hvalid : (a.accessClaims user now now).toRegistered.Valid now = none := by
    rw [accessClaims_toRegistered]
    apply Valid_none
    · intro e he
      simp only [Option.some.injEq] at he
      rw [← he]
      exact lt_timeOfUnix_Unix_add now _ hlife
    · intro i hi
      simp only [Option.some.injEq] at hi
      rw [← hi]
      exact timeOfUnix_Unix_le now
    · intro n hn
      simp at hn
  rw [hvalid] at hv
  have hiss : (a.accessClaims user now now).toRegistered.Issuer = a.Issuer := by
    rw [accessClaims_toRegistered]
  simp only [hiss, ne_eq, not_true_eq_false, if_false] at hv
  refine ⟨⟨(a.accessClaims user now now).toRegistered⟩, hv, ?_, ?_, hiss, ?_⟩
  · rw [accessClaims_toRegistered]
  · rw [accessClaims_toRegistered]
    exact Atoi_Sprint user.ID hid1 hid2
  · rw [accessClaims_toRegistered]

/-- C1, at the configuration of `main.go`, the reference codec and second 1000. -/
theorem C1_round_trip_witness :
    (∃ p, defaultAuth.GenerateTokenPair refJWT sampleUser (timeOfUnix 1000) (timeOfUnix 1000)
        (timeOfUnix 1000) (timeOfUnix 1000) = (p, none)) ∧
    ∀ p, defaultAuth.GenerateTokenPair refJWT sampleUser (timeOfUnix 1000) (timeOfUnix 1000)
        (timeOfUnix 1000) (timeOfUnix 1000) = (p, none) →
      ∃ c : claims,
        defaultAuth.GetTokenFromHeaderAndVerify refJWT (timeOfUnix 1000) []
            (requestWithAuthorization ("Bearer " ++ p.Token))
          = (Header.Add [] "Vary" "Authorization", ⟨p.Token, some c, none⟩) ∧
        c.Subject = Sprint sampleUser.ID ∧ Atoi c.Subject = some sampleUser.ID ∧
        c.Issuer = defaultAuth.Issuer ∧ c.Audience = [defaultAuth.Audience] :=
  C1_round_trip refJWT refJWT_lawful defaultAuth sampleUser (timeOfUnix 1000) []
    (by decide) (by decide) (by decide) (by decide) (by decide)

/-- C1 fails as stated. With an access lifetime of zero the pair is issued, and
its access token is rejected as expired at the instant of issuance; and the
claim set returned for a token does not tell its type: a token of type `JWT`
and one of another type are both accepted with the same claim set. -/
theorem C1_counterexample :
    (zeroLifetimeAuth.GenerateTokenPair refJWT sampleUser (timeOfUnix 1000) (timeOfUnix 1000)
        (timeOfUnix 1000) (timeOfUnix 1000)).2 = none ∧
    (zeroLifetimeAuth.GetTokenFromHeaderAndVerify refJWT (timeOfUnix 1000) []
        (requestWithAuthorization ("Bearer " ++
          (zeroLifetimeAuth.GenerateTokenPair refJWT sampleUser (timeOfUnix 1000)
            (timeOfUnix 1000) (timeOfUnix 1000) (timeOfUnix 1000)).1.Token))).2
      = ⟨"", none, some (.text "expired token")⟩ ∧
    (defaultAuth.GetTokenFromHeaderAndVerify refJWT (timeOfUnix 1000) []
        (requestWithAuthorization ("Bearer " ++ refToken (typedClaims "JWT") defaultAuth.Secret))).2
      = ⟨refToken (typedClaims "JWT") defaultAuth.Secret, some ⟨(typedClaims "JWT").toRegistered⟩,
          none⟩ ∧
    (defaultAuth.GetTokenFromHeaderAndVerify refJWT (timeOfUnix 1000) []
        (requestWithAuthorization ("Bearer " ++ refToken (typedClaims "other") defaultAuth.Secret))).2
      = ⟨refToken (typedClaims "other") defaultAuth.Secret, some ⟨(typedClaims "JWT").toRegistered⟩,
          none⟩ := by
  obtain ⟨p, hp⟩ := GenerateTokenPair_succeeds refJWT refJWT_lawful zeroLifetimeAuth sampleUser
    (timeOfUnix 1000) (timeOfUnix 1000) (timeOfUnix 1000) (timeOfUnix 1000)
  obtain ⟨hA, _⟩ := GenerateTokenPair_ok _ _ _ _ _ _ _ p hp
  obtain ⟨hnd, hok⟩ := accessClaims_wellTyped zeroLifetimeAuth sampleUser (timeOfUnix 1000)
    (timeOfUnix 1000) (by decide) (by decide)
  have h1 := verify_signedString refJWT refJWT_lawful zeroLifetimeAuth (timeOfUnix 1000) [] _
    p.Token hnd hok hA
  have h2 := verify_signedString refJWT refJWT_lawful defaultAuth (timeOfUnix 1000) []
    (typedClaims "JWT") _ (by decide) (by decide) (refToken_signed _ _)
  have h3 := verify_signedString refJWT refJWT_lawful defaultAuth (timeOfUnix 1000) []
    (typedClaims "other") _ (by decide) (by decide) (refToken_signed _ _)
  rw [hp]
  refine ⟨rfl, ?_, ?_, ?_⟩
  · have hv : (zeroLifetimeAuth.accessClaims sampleUser (timeOfUnix 1000)
        (timeOfUnix 1000)).toRegistered.Valid (timeOfUnix 1000)
        = some ⟨"token is expired", 16⟩ := by
      rw [accessClaims_toRegistered]
      decide
    rw [h1, hv]
    rfl
  · have hv : (typedClaims "JWT").toRegistered.Valid (timeOfUnix 1000) = none := by decide
    rw [h2, hv]
    rfl
  · have hv : (typedClaims "other").toRegistered.Valid (timeOfUnix 1000) = none := by decide
    rw [h3, hv]
    rfl

/-- C2. Header-shape rejection: whatever the codec, the secret and the clock
reading are, an empty `Authorization` header fails with "no auth header"
(MissingAuth), and a non-empty header that does not split into exactly two
fields, or whose first field is not exactly `Bearer`, fails with "invalid auth
header" (MalformedHeader); the returned token is empty and the claims are nil,
and the outcome is the same for every codec, configuration and clock reading:
the token is not parsed. -/
theorem C2_header_shape (J : JWT) (a : auth) (now : Int) (w : Header) (r : Request)
    (hbad : r.Header.Get "Authorization" = "" ∨
      (Fields (r.Header.Get "Authorization")).length ≠ 2 ∨
      (Fields (r.Header.Get "Authorization")).getD 0 "" ≠ "Bearer") :
    a.GetTokenFromHeaderAndVerify J now w r =
      (w.Add "Vary" "Authorization",
        ⟨"", none, some (.text (if r.Header.Get "Authorization" = "" then "no auth header"
          else "invalid auth header"))⟩) ∧
    failureKind (.text (if r.Header.Get "Authorization" = "" then "no auth header"
          else "invalid auth header")) =
      some (if r.Header.Get "Authorization" = "" then .MissingAuth else .MalformedHeader) ∧
    ∀ (J' : JWT) (a' : auth) (now' : Int),
      a'.GetTokenFromHeaderAndVerify J' now' w r = a.GetTokenFromHeaderAndVerify J now w r := by
  have key : ∀ (J' : JWT) (a' : auth) (now' : Int),
      a'.GetTokenFromHeaderAndVerify J' now' w r =
      (w.Add "Vary" "Authorization",
        ⟨"", none, some (.text (if r.Header.Get "Authorization" = "" then "no auth header"
          else "invalid auth header"))⟩) := by
    intro J' a' now'
    unfold auth.GetTokenFromHeaderAndVerify
    by_cases h0 : r.Header.Get "Authorization" = ""
    · simp [h0]
    · rcases hbad with h | h | h
      · exact absurd h h0
      · simp [h0, h]
      · by_cases hl : (Fields (r.Header.Get "Authorization")).length = 2
        · simp only [h0, if_false, hl, ne_eq, not_true_eq_false, h, not_false_eq_true, if_true]
        · simp [h0, hl]
  refine ⟨key J a now, ?_, fun J' a' now' => (key J' a' now').trans (key J a now).symm⟩
  by_cases h0 : r.Header.Get "Authorization" = "" <;> simp [h0, failureKind]

/-- C2 at the header `bearer abc`, whose first field differs from `Bearer` by case. -/
theorem C2_header_shape_witness :
    defaultAuth.GetTokenFromHeaderAndVerify refJWT 0 [] (requestWithAuthorization "bearer abc") =
      (Header.Add [] "Vary" "Authorization",
        ⟨"", none, some (.text (if (requestWithAuthorization "bearer abc").Header.Get
          "Authorization" = "" then "no auth header" else "invalid auth header"))⟩) ∧
    failureKind (.text (if (requestWithAuthorization "bearer abc").Header.Get "Authorization" = ""
        then "no auth header" else "invalid auth header")) =
      some (if (requestWithAuthorization "bearer abc").Header.Get "Authorization" = ""
        then .MissingAuth else .MalformedHeader) ∧
    ∀ (J' : JWT) (a' : auth) (now' : Int),
      a'.GetTokenFromHeaderAndVerify J' now' [] (requestWithAuthorization "bearer abc") =
        defaultAuth.GetTokenFromHeaderAndVerify refJWT 0 [] (requestWithAuthorization "bearer abc") :=
  C2_header_shape refJWT defaultAuth 0 [] (requestWithAuthorization "bearer abc")
    (Or.inr (Or.inr (by decide)))

theorem IsExpired_unverifiable (s : String) :
    (ValidationError.mk s ValidationErrorUnverifiable).IsExpired = false := by
  simp only [ValidationError.IsExpired]
  decide

theorem IsExpired_malformed (s : String) :
    (ValidationError.mk s ValidationErrorMalformed).IsExpired = false := by
  simp only [ValidationError.IsExpired]
  decide

theorem GetSigningMethod_alg (alg : String) (m : SigningMethod)
    (h : GetSigningMethod alg = some m) : m.Alg = alg := by
  unfold GetSigningMethod at h
  have := List.find?_some h
  simpa using this

theorem isHMAC_alg (m : SigningMethod) (h : m.isHMAC = true) :
    m.Alg ∈ ["HS256", "HS384", "HS512"] := by
  cases m <;> simp [SigningMethod.isHMAC] at h <;> simp [SigningMethod.Alg]

/-- C3. Algorithm pinning: for every codec, secret and clock reading, a header
`Bearer <token>` whose token has three parts and a header segment that decodes
but declares no algorithm or one outside HS256, HS384, HS512 is rejected with
the error of the token library passed on unchanged (the kind BadSignature): no
token and no claims are returned, whatever the payload and the signature
segment are. The error is "unverifiable" whenever the payload decodes. -/
theorem C3_algorithm_pinning (J : JWT) (a : auth) (now : Int) (w : Header) (r : Request)
    (tok hs ps ss : String) (hd : MapClaims)
    (hf : Fields (r.Header.Get "Authorization") = ["Bearer", tok])
    (hsplit : SplitDot tok = [hs, ps, ss])
    (hdec : J.decodeHeader hs = some hd)
    (halg : ∀ alg, hd.lookup "alg" = some (.str alg) → alg ∉ ["HS256", "HS384", "HS512"]) :
    ∃ e, a.GetTokenFromHeaderAndVerify J now w r =
        (w.Add "Vary" "Authorization", ⟨"", none, some (.jwt e)⟩) ∧
      failureKind (.jwt e) = some .BadSignature ∧
      (J.decodeClaims ps ≠ none → e.Errors = ValidationErrorUnverifiable) := by
  have hne : r.Header.Get "Authorization" ≠ "" := by
    intro h0
    rw [h0, Fields_empty] at hf
    exact absurd hf (by simp)
  unfold auth.GetTokenFromHeaderAndVerify
  simp only [hne, if_false, hf, List.length_cons, List.length_nil, List.getD_cons_zero,
    List.getD_cons_succ]
  unfold ParseWithClaims ParseUnverified
  simp only [hsplit, List.length_cons, List.length_nil, List.getD_cons_zero,
    List.getD_cons_succ, hdec]
  cases hcl : J.decodeClaims ps with
  | none =>
    refine ⟨⟨"malformed claims", ValidationErrorMalformed⟩, ?_, rfl, fun h => absurd rfl h⟩
    simp [IsExpired_malformed]
  | some rc =>
    cases hl : hd.lookup "alg" with
    | none =>
      refine ⟨⟨"signing method (alg) is unspecified.", ValidationErrorUnverifiable⟩, ?_, rfl,
        fun _ => rfl⟩
      simp [IsExpired_unverifiable]
    | some v =>
      cases v with
      | int i =>
        refine ⟨⟨"signing method (alg) is unspecified.", ValidationErrorUnverifiable⟩, ?_, rfl,
          fun _ => rfl⟩
        simp [IsExpired_unverifiable]
      | other =>
        refine ⟨⟨"signing method (alg) is unspecified.", ValidationErrorUnverifiable⟩, ?_, rfl,
          fun _ => rfl⟩
        simp [IsExpired_unverifiable]
      | str alg =>
        cases hm : GetSigningMethod alg with
        | none =>
          refine ⟨⟨"signing method (alg) is unavailable.", ValidationErrorUnverifiable⟩, ?_, rfl,
            fun _ => rfl⟩
          simp [hm, IsExpired_unverifiable]
        | some m =>
          have hnot : m.isHMAC = false := by
            cases hh : m.isHMAC with
            | false => rfl
            | true =>
              have h1 := isHMAC_alg m hh
              rw [GetSigningMethod_alg alg m hm] at h1
              exact absurd h1 (halg alg hl)
          refine ⟨⟨"unexpected signing method: " ++ alg, ValidationErrorUnverifiable⟩, ?_, rfl,
            fun _ => rfl⟩
          simp [hm, auth.keyFunc, hnot, hl, fmtV, IsExpired_unverifiable]

theorem Fields_bearer_token (a b c : String)
    (ha : ∀ x, x ∈ a.data → isBase64URL x = true) (hb : ∀ x, x ∈ b.data → isBase64URL x = true)
    (hc : ∀ x, x ∈ c.data → isBase64URL x = true) :
    Fields ("Bearer " ++ JoinDot [JoinDot [a, b], c]) = ["Bearer", JoinDot [JoinDot [a, b], c]] := by
  apply Fields_bearer
  · simp [JoinDot]
  · intro x hx
    simp only [JoinDot, String.data_append, List.mem_append] at hx
    have hdot : ∀ x, x ∈ (".").data → isSpace x = false := by
      intro x hx
      have : x = '.' := by simpa using hx
      subst this; decide
    rcases hx with (((hx | hx) | hx) | hx) | hx
    · exact isBase64URL_not_space x (ha x hx)
    · exact hdot x hx
    · exact isBase64URL_not_space x (hb x hx)
    · exact hdot x hx
    · exact isBase64URL_not_space x (hc x hx)

/-- C3 at a token of the reference codec whose header declares `none`. -/
theorem C3_algorithm_pinning_witness :
    ∃ e, defaultAuth.GetTokenFromHeaderAndVerify refJWT (timeOfUnix 1000) []
          (requestWithAuthorization ("Bearer " ++ noneToken)) =
        (Header.Add [] "Vary" "Authorization", ⟨"", none, some (.jwt e)⟩) ∧
      failureKind (.jwt e) = some .BadSignature ∧
      (refJWT.decodeClaims (refJWT.encodeSegment (typedClaims "JWT")) ≠ none →
        e.Errors = ValidationErrorUnverifiable) :=
  C3_algorithm_pinning refJWT defaultAuth (timeOfUnix 1000) []
    (requestWithAuthorization ("Bearer " ++ noneToken)) noneToken
    (refJWT.encodeSegment [("typ", .str "JWT"), ("alg", .str "none")])
    (refJWT.encodeSegment (typedClaims "JWT")) ""
    [("typ", .str "JWT"), ("alg", .str "none")]
    (by
      rw [Header_Get_requestWithAuthorization]
      exact Fields_bearer_token _ _ _ (refJWT_lawful.segment_alphabet _)
        (refJWT_lawful.segment_alphabet _) (fun x hx => by simp at hx))
    (SplitDot_three _ _ _
      (fun x hx => isBase64URL_ne_dot x (refJWT_lawful.segment_alphabet _ x hx))
      (fun x hx => isBase64URL_ne_dot x (refJWT_lawful.segment_alphabet _ x hx))
      (fun x hx => by simp at hx))
    (refJWT_decodeHeader _)
    (by
      intro alg h
      have : alg = "none" := by
        simp [List.lookup] at h
        exact h.symm
      subst this
      decide)

theorem success_issuer (J : JWT) (a : auth) (now : Int) (w : Header) (r : Request)
    (t : String) (c : claims)
    (h : (a.GetTokenFromHeaderAndVerify J now w r).2 = ⟨t, some c, none⟩) :
    c.Issuer = a.Issuer := by
  unfold auth.GetTokenFromHeaderAndVerify at h
  simp only at h
  split at h
  · simp at h
  · split at h
    · simp at h
    · split at h
      · simp at h
      · split at h
        · split at h <;> simp at h
        · split at h
          · simp at h
          · rename_i hiss
            simp only [VerifyResult.mk.injEq, Option.some.injEq, and_true] at h
            obtain ⟨_, hc⟩ := h
            subst hc
            simpa using hiss

/-- C4, as amended. Expiry window: for every codec and every token validly
signed with the configured secret that carries the configured issuer and an
expiry, `GetTokenFromHeaderAndVerify` at time `now` fails with "expired token"
(Expired), returning no token and no claims, when the expiry is at or before
`now`; and when the expiry is after `now` and the token's `iat` and `nbf`, if
present, are not after `now`, it succeeds and returns the token and its claims. -/
theorem C4_expiry_window (J : JWT) (a : auth) (now : Int) (w : Header) (r : Request)
    (tok : String) (rc : RegisteredClaims) (exp : Int)
    (hf : Fields (r.Header.Get "Authorization") = ["Bearer", tok])
    (hs : signedClaims J a.Secret tok = some rc)
    (hiss : rc.Issuer = a.Issuer) (hexp : rc.ExpiresAt = some exp) :
    (exp ≤ now →
      a.GetTokenFromHeaderAndVerify J now w r =
        (w.Add "Vary" "Authorization", ⟨"", none, some (.text "expired token")⟩) ∧
      failureKind (.text "expired token") = some .Expired) ∧
    (now < exp → (∀ i, rc.IssuedAt = some i → i ≤ now) → (∀ n, rc.NotBefore = some n → n ≤ now) →
      a.GetTokenFromHeaderAndVerify J now w r =
        (w.Add "Vary" "Authorization", ⟨tok, some ⟨rc⟩, none⟩)) := by
  have hv := verify_signed J a now w r tok rc hf hs
  constructor
  · intro hle
    obtain ⟨v, hv1, hv2⟩ := Valid_expired rc now exp hexp hle
    rw [hv1] at hv
    simp only [hv2, if_true] at hv
    exact ⟨hv, rfl⟩
  · intro hlt hiat hnbf
    have hnone : rc.Valid now = none := by
      apply Valid_none rc now _ hiat hnbf
      intro e he
      rw [hexp] at he
      simp only [Option.some.injEq] at he
      omega
    rw [hnone] at hv
    simpa [hiss] using hv

/-- C4 at the reference codec and second 1000: a token of `defaultAuth` that
expires at second 1899 (`now` plus the lifetime less one second). -/
theorem C4_expiry_window_witness :
    (timeOfUnix 1899 ≤ timeOfUnix 1000 →
      defaultAuth.GetTokenFromHeaderAndVerify refJWT (timeOfUnix 1000) []
          (requestWithAuthorization ("Bearer " ++ refToken liveClaims defaultAuth.Secret)) =
        (Header.Add [] "Vary" "Authorization", ⟨"", none, some (.text "expired token")⟩) ∧
      failureKind (.text "expired token") = some .Expired) ∧
    (timeOfUnix 1000 < timeOfUnix 1899 →
      (∀ i, liveClaims.toRegistered.IssuedAt = some i → i ≤ timeOfUnix 1000) →
      (∀ n, liveClaims.toRegistered.NotBefore = some n → n ≤ timeOfUnix 1000) →
      defaultAuth.GetTokenFromHeaderAndVerify refJWT (timeOfUnix 1000) []
          (requestWithAuthorization ("Bearer " ++ refToken liveClaims defaultAuth.Secret)) =
        (Header.Add [] "Vary" "Authorization",
          ⟨refToken liveClaims defaultAuth.Secret, some ⟨liveClaims.toRegistered⟩, none⟩)) :=
  C4_expiry_window refJWT defaultAuth (timeOfUnix 1000) []
    (requestWithAuthorization ("Bearer " ++ refToken liveClaims defaultAuth.Secret))
    (refToken liveClaims defaultAuth.Secret) liveClaims.toRegistered (timeOfUnix 1899)
    (by
      rw [Header_Get_requestWithAuthorization]
      exact (signed_token refJWT refJWT_lawful liveClaims defaultAuth.Secret _ (by decide)
        (by decide) (refToken_signed _ _)).2)
    (signed_token refJWT refJWT_lawful liveClaims defaultAuth.Secret _ (by decide) (by decide)
      (refToken_signed _ _)).1
    (by decide) (by decide)

/-- C4 fails as stated: a token validly signed with the configured secret, with
the configured issuer and an expiry after `now`, but with `nbf` after `now`, is
not accepted: the verifier passes on the error "token is not valid yet". -/
theorem C4_counterexample :
    signedClaims refJWT defaultAuth.Secret (refToken notYetValidClaims defaultAuth.Secret)
      = some notYetValidClaims.toRegistered ∧
    notYetValidClaims.toRegistered.Issuer = defaultAuth.Issuer ∧
    notYetValidClaims.toRegistered.ExpiresAt = some (timeOfUnix 9000) ∧
    timeOfUnix 1000 < timeOfUnix 9000 ∧
    (defaultAuth.GetTokenFromHeaderAndVerify refJWT (timeOfUnix 1000) []
        (requestWithAuthorization ("Bearer " ++ refToken notYetValidClaims defaultAuth.Secret))).2
      = ⟨"", none, some (.jwt ⟨"token is not valid yet", ValidationErrorNotValidYet⟩)⟩ := by
  have h := verify_signedString refJWT refJWT_lawful defaultAuth (timeOfUnix 1000) []
    notYetValidClaims _ (by decide) (by decide) (refToken_signed _ _)
  have hv : notYetValidClaims.toRegistered.Valid (timeOfUnix 1000)
      = some ⟨"token is not valid yet", ValidationErrorNotValidYet⟩ := by decide
  refine ⟨(signed_token refJWT refJWT_lawful notYetValidClaims defaultAuth.Secret _ (by decide)
    (by decide) (refToken_signed _ _)).1, rfl, rfl, by decide, ?_⟩
  rw [h, hv]
  rfl

/-- C5, as amended. Issuer binding: for every codec, a token validly signed with
the configured secret that is unexpired, whose `iat` and `nbf`, if present, are
not after `now`, and whose issuer differs from the configured issuer, fails with
"invalid issuer" (WrongIssuer) and returns an empty token and nil claims; and
every claim set returned on success has the configured issuer. -/
theorem C5_issuer_binding (J : JWT) (a : auth) (now : Int) (w : Header) (r : Request)
    (tok : String) (rc : RegisteredClaims)
    (hf : Fields (r.Header.Get "Authorization") = ["Bearer", tok])
    (hs : signedClaims J a.Secret tok = some rc)
    (hexp : ∀ e, rc.ExpiresAt = some e → now < e)
    (hiat : ∀ i, rc.IssuedAt = some i → i ≤ now)
    (hnbf : ∀ n, rc.NotBefore = some n → n ≤ now)
    (hiss : rc.Issuer ≠ a.Issuer) :
    a.GetTokenFromHeaderAndVerify J now w r =
      (w.Add "Vary" "Authorization", ⟨"", none, some (.text "invalid issuer")⟩) ∧
    failureKind (.text "invalid issuer") = some .WrongIssuer ∧
    ∀ (r' : Request) (t : String) (c : claims),
      (a.GetTokenFromHeaderAndVerify J now w r').2 = ⟨t, some c, none⟩ → c.Issuer = a.Issuer := by
  have hv := verify_signed J a now w r tok rc hf hs
  rw [Valid_none rc now hexp hiat hnbf] at hv
  refine ⟨?_, rfl, fun r' t c h => success_issuer J a now w r' t c h⟩
  simpa [hiss] using hv

/-- C5 at the reference codec and second 1000: an unexpired token of another issuer. -/
theorem C5_issuer_binding_witness :
    defaultAuth.GetTokenFromHeaderAndVerify refJWT (timeOfUnix 1000) []
        (requestWithAuthorization ("Bearer " ++ refToken wrongIssuerClaims defaultAuth.Secret)) =
      (Header.Add [] "Vary" "Authorization", ⟨"", none, some (.text "invalid issuer")⟩) ∧
    failureKind (.text "invalid issuer") = some .WrongIssuer ∧
    ∀ (r' : Request) (t : String) (c : claims),
      (defaultAuth.GetTokenFromHeaderAndVerify refJWT (timeOfUnix 1000) [] r').2
        = ⟨t, some c, none⟩ → c.Issuer = defaultAuth.Issuer :=
  C5_issuer_binding refJWT defaultAuth (timeOfUnix 1000) []
    (requestWithAuthorization ("Bearer " ++ refToken wrongIssuerClaims defaultAuth.Secret))
    (refToken wrongIssuerClaims defaultAuth.Secret) wrongIssuerClaims.toRegistered
    (by
      rw [Header_Get_requestWithAuthorization]
      exact (signed_token refJWT refJWT_lawful wrongIssuerClaims defaultAuth.Secret _ (by decide)
        (by decide) (refToken_signed _ _)).2)
    (signed_token refJWT refJWT_lawful wrongIssuerClaims defaultAuth.Secret _ (by decide)
      (by decide) (refToken_signed _ _)).1
    (by decide) (by decide) (by decide) (by decide)

/-- C5 fails as stated: an unexpired token validly signed with the configured
secret whose issuer differs from the configured one, but with `nbf` after `now`,
does not fail with "invalid issuer": the verifier passes on the error "token is
not valid yet" of the token library. -/
theorem C5_counterexample :
    signedClaims refJWT defaultAuth.Secret
        (refToken wrongIssuerNotYetValidClaims defaultAuth.Secret)
      = some wrongIssuerNotYetValidClaims.toRegistered ∧
    wrongIssuerNotYetValidClaims.toRegistered.Issuer ≠ defaultAuth.Issuer ∧
    wrongIssuerNotYetValidClaims.toRegistered.ExpiresAt = some (timeOfUnix 9000) ∧
    timeOfUnix 1000 < timeOfUnix 9000 ∧
    (defaultAuth.GetTokenFromHeaderAndVerify refJWT (timeOfUnix 1000) []
        (requestWithAuthorization
          ("Bearer " ++ refToken wrongIssuerNotYetValidClaims defaultAuth.Secret))).2
      = ⟨"", none, some (.jwt ⟨"token is not valid yet", ValidationErrorNotValidYet⟩)⟩ ∧
    (Error.jwt ⟨"token is not valid yet", ValidationErrorNotValidYet⟩)
      ≠ .text "invalid issuer" := by
  have h := verify_signedString refJWT refJWT_lawful defaultAuth (timeOfUnix 1000) []
    wrongIssuerNotYetValidClaims _ (by decide) (by decide) (refToken_signed _ _)
  have hv : wrongIssuerNotYetValidClaims.toRegistered.Valid (timeOfUnix 1000)
      = some ⟨"token is not valid yet", ValidationErrorNotValidYet⟩ := by decide
  refine ⟨(signed_token refJWT refJWT_lawful wrongIssuerNotYetValidClaims defaultAuth.Secret _
    (by decide) (by decide) (refToken_signed _ _)).1, by decide, rfl, by decide, ?_, by decide⟩
  rw [h, hv]
  rfl

/-- C6, as amended. The verifier binds the issuer, not the audience: for every
codec, a token validly signed with the configured secret that is unexpired,
whose `iat` and `nbf`, if present, are not after `now`, and that carries the
configured issuer is accepted and its claim set is returned with the audience
the token carries, whatever that is; every claim set returned on success has the
configured issuer; and the access claims that `GenerateTokenPair` sets carry the
configured audience. -/
theorem C6_audience_not_compared (J : JWT) (a : auth) (now : Int) (w : Header) (r : Request)
    (tok : String) (rc : RegisteredClaims)
    (hf : Fields (r.Header.Get "Authorization") = ["Bearer", tok])
    (hs : signedClaims J a.Secret tok = some rc)
    (hexp : ∀ e, rc.ExpiresAt = some e → now < e)
    (hiat : ∀ i, rc.IssuedAt = some i → i ≤ now)
    (hnbf : ∀ n, rc.NotBefore = some n → n ≤ now)
    (hiss : rc.Issuer = a.Issuer) :
    (∃ c : claims, a.GetTokenFromHeaderAndVerify J now w r =
        (w.Add "Vary" "Authorization", ⟨tok, some c, none⟩) ∧ c.Audience = rc.Audience) ∧
    (∀ (r' : Request) (t : String) (c : claims),
      (a.GetTokenFromHeaderAndVerify J now w r').2 = ⟨t, some c, none⟩ → c.Issuer = a.Issuer) ∧
    ∀ (user : jwtUser) (t1 t2 : Int),
      (a.accessClaims user t1 t2).toRegistered.Audience = [a.Audience] := by
  have hv := verify_signed J a now w r tok rc hf hs
  rw [Valid_none rc now hexp hiat hnbf] at hv
  refine ⟨⟨⟨rc⟩, ?_, rfl⟩, fun r' t c h => success_issuer J a now w r' t c h, ?_⟩
  · simpa [hiss] using hv
  · intro user t1 t2
    rw [accessClaims_toRegistered]

/-- C6 at the reference codec and second 1000: a token with the issuer of
`defaultAuth` and the audience `other.example`. -/
theorem C6_audience_not_compared_witness :
    (∃ c : claims, defaultAuth.GetTokenFromHeaderAndVerify refJWT (timeOfUnix 1000) []
          (requestWithAuthorization ("Bearer " ++ refToken otherAudienceClaims defaultAuth.Secret))
        = (Header.Add [] "Vary" "Authorization",
            ⟨refToken otherAudienceClaims defaultAuth.Secret, some c, none⟩) ∧
      c.Audience = otherAudienceClaims.toRegistered.Audience) ∧
    (∀ (r' : Request) (t : String) (c : claims),
      (defaultAuth.GetTokenFromHeaderAndVerify refJWT (timeOfUnix 1000) [] r').2
        = ⟨t, some c, none⟩ → c.Issuer = defaultAuth.Issuer) ∧
    ∀ (user : jwtUser) (t1 t2 : Int),
      (defaultAuth.accessClaims user t1 t2).toRegistered.Audience = [defaultAuth.Audience] :=
  C6_audience_not_compared refJWT defaultAuth (timeOfUnix 1000) []
    (requestWithAuthorization ("Bearer " ++ refToken otherAudienceClaims defaultAuth.Secret))
    (refToken otherAudienceClaims defaultAuth.Secret) otherAudienceClaims.toRegistered
    (by
      rw [Header_Get_requestWithAuthorization]
      exact (signed_token refJWT refJWT_lawful otherAudienceClaims defaultAuth.Secret _
        (by decide) (by decide) (refToken_signed _ _)).2)
    (signed_token refJWT refJWT_lawful otherAudienceClaims defaultAuth.Secret _ (by decide)
      (by decide) (refToken_signed _ _)).1
    (by decide) (by decide) (by decide) (by decide)

/-- C6 fails as stated: a validly signed, unexpired token with the configured
issuer and the audience `other.example` is accepted, and the claim set returned
has an audience other than the configured one. -/
theorem C6_counterexample :
    signedClaims refJWT defaultAuth.Secret (refToken otherAudienceClaims defaultAuth.Secret)
      = some otherAudienceClaims.toRegistered ∧
    (defaultAuth.GetTokenFromHeaderAndVerify refJWT (timeOfUnix 1000) []
        (requestWithAuthorization ("Bearer " ++ refToken otherAudienceClaims defaultAuth.Secret))).2
      = ⟨refToken otherAudienceClaims defaultAuth.Secret,
          some ⟨otherAudienceClaims.toRegistered⟩, none⟩ ∧
    otherAudienceClaims.toRegistered.Issuer = defaultAuth.Issuer ∧
    otherAudienceClaims.toRegistered.Audience = ["other.example"] ∧
    otherAudienceClaims.toRegistered.Audience ≠ [defaultAuth.Audience] := by
  have h := verify_signedString refJWT refJWT_lawful defaultAuth (timeOfUnix 1000) []
    otherAudienceClaims _ (by decide) (by decide) (refToken_signed _ _)
  have hv : otherAudienceClaims.toRegistered.Valid (timeOfUnix 1000) = none := by decide
  refine ⟨(signed_token refJWT refJWT_lawful otherAudienceClaims defaultAuth.Secret _
    (by decide) (by decide) (refToken_signed _ _)).1, ?_, rfl, rfl, by decide⟩
  rw [h, hv]
  rfl

theorem Unix_add_seconds (t l : Int) : Unix (t + l * Second) = Unix t + l := by
  unfold Unix Second
  omega

/-- C7, as amended. Issued validity window: for every codec, identity and clock
reading `now` (the same at every call of the clock), when the access lifetime is
a whole number `L` of seconds and the refresh lifetime a whole number `R` of
seconds, the claims signed into the access token have `iat` the Unix second of
`now` and `exp = iat + L`, those signed into the refresh token have the same
`iat` and `exp = iat + R`; `exp` is strictly greater than `iat` exactly when the
lifetime is at least one second. The tokens of a returned pair are the signed
strings of these claims. -/
theorem C7_validity_window (J : JWT) (a : auth) (user : jwtUser) (now L R : Int)
    (hL : a.TokenExpiry = L * Second) (hR : a.RefreshExpiry = R * Second) :
    (a.accessClaims user now now).lookup "iat" = some (.int (Unix now)) ∧
    (a.accessClaims user now now).lookup "exp" = some (.int (Unix now + L)) ∧
    (a.refreshClaims user now now).lookup "iat" = some (.int (Unix now)) ∧
    (a.refreshClaims user now now).lookup "exp" = some (.int (Unix now + R)) ∧
    (Unix now < Unix now + L ↔ 1 ≤ L) ∧ (Unix now < Unix now + R ↔ 1 ≤ R) ∧
    ∀ p, a.GenerateTokenPair J user now now now now = (p, none) →
      SignedString J ((New .HS256).1, a.accessClaims user now now, .HS256) a.Secret
        = .ok p.Token ∧
      SignedString J ((New .HS256).1, a.refreshClaims user now now, .HS256) a.Secret
        = .ok p.RefresToken := by
  refine ⟨?_, ?_, ?_, ?_, by omega, by omega,
    fun p hp => GenerateTokenPair_ok J a user now now now now p hp⟩
  · rw [accessClaims_eq]; rfl
  · rw [accessClaims_eq, hL, Unix_add_seconds]; rfl
  · rw [refreshClaims_eq]; rfl
  · rw [refreshClaims_eq, hR, Unix_add_seconds]; rfl

/-- C7 at the configuration of `main.go`: lifetimes of 900 and 86400 seconds. -/
theorem C7_validity_window_witness :
    (defaultAuth.accessClaims sampleUser (timeOfUnix 1000) (timeOfUnix 1000)).lookup "iat"
      = some (.int (Unix (timeOfUnix 1000))) ∧
    (defaultAuth.accessClaims sampleUser (timeOfUnix 1000) (timeOfUnix 1000)).lookup "exp"
      = some (.int (Unix (timeOfUnix 1000) + 900)) ∧
    (defaultAuth.refreshClaims sampleUser (timeOfUnix 1000) (timeOfUnix 1000)).lookup "iat"
      = some (.int (Unix (timeOfUnix 1000))) ∧
    (defaultAuth.refreshClaims sampleUser (timeOfUnix 1000) (timeOfUnix 1000)).lookup "exp"
      = some (.int (Unix (timeOfUnix 1000) + 86400)) ∧
    (Unix (timeOfUnix 1000) < Unix (timeOfUnix 1000) + 900 ↔ (1 : Int) ≤ 900) ∧
    (Unix (timeOfUnix 1000) < Unix (timeOfUnix 1000) + 86400 ↔ (1 : Int) ≤ 86400) ∧
    ∀ p, defaultAuth.GenerateTokenPair refJWT sampleUser (timeOfUnix 1000) (timeOfUnix 1000)
        (timeOfUnix 1000) (timeOfUnix 1000) = (p, none) →
      SignedString refJWT ((New .HS256).1,
          defaultAuth.accessClaims sampleUser (timeOfUnix 1000) (timeOfUnix 1000), .HS256)
          defaultAuth.Secret = .ok p.Token ∧
      SignedString refJWT ((New .HS256).1,
          defaultAuth.refreshClaims sampleUser (timeOfUnix 1000) (timeOfUnix 1000), .HS256)
          defaultAuth.Secret = .ok p.RefresToken :=
  C7_validity_window refJWT defaultAuth sampleUser (timeOfUnix 1000) 900 86400
    (by decide) (by decide)

/-- C7 fails as stated. With an access lifetime of zero the access claims have
`exp` equal to `iat`, not greater; and with a lifetime of one second and a half
`exp - iat` is 1 at one clock reading and 2 at another, so it is not the
lifetime in seconds. -/
theorem C7_counterexample :
    (zeroLifetimeAuth.accessClaims sampleUser (timeOfUnix 1000) (timeOfUnix 1000)).lookup "iat"
      = some (.int 1000) ∧
    (zeroLifetimeAuth.accessClaims sampleUser (timeOfUnix 1000) (timeOfUnix 1000)).lookup "exp"
      = some (.int 1000) ∧
    (fractionalAuth.accessClaims sampleUser (timeOfUnix 1000) (timeOfUnix 1000)).lookup "iat"
      = some (.int 1000) ∧
    (fractionalAuth.accessClaims sampleUser (timeOfUnix 1000) (timeOfUnix 1000)).lookup "exp"
      = some (.int 1001) ∧
    (fractionalAuth.accessClaims sampleUser (timeOfUnix 1000 + 600000000)
        (timeOfUnix 1000 + 600000000)).lookup "iat" = some (.int 1000) ∧
    (fractionalAuth.accessClaims sampleUser (timeOfUnix 1000 + 600000000)
        (timeOfUnix 1000 + 600000000)).lookup "exp" = some (.int 1002) := by
  simp only [accessClaims_eq]
  decide

theorem Sprint_ne_nil (i : Int) : (Sprint i).data ≠ [] := by
  unfold Sprint
  split
  · simp [String.data_append]
  · exact formatNat_ne_nil _

/-- C8, as amended. Subject encoding: for every codec and every identity whose
id is an `int`, the `sub` claim signed into the access token and into the
refresh token is the same non-empty string, the decimal string of the id, and
`Atoi` parses it back to the id; for a non-negative id it consists of decimal
digits only, for a negative id of the sign `-` followed by decimal digits. The
tokens of a returned pair are the signed strings of these claims. -/
theorem C8_subject_encoding (J : JWT) (a : auth) (user : jwtUser) (t1 t2 t3 t4 : Int)
    (hid1 : -(2 ^ 63 : Int) ≤ user.ID) (hid2 : user.ID < 2 ^ 63) :
    (a.accessClaims user t1 t2).lookup "sub" = some (.str (Sprint user.ID)) ∧
    (a.refreshClaims user t3 t4).lookup "sub" = some (.str (Sprint user.ID)) ∧
    (Sprint user.ID).data ≠ [] ∧
    Atoi (Sprint user.ID) = some user.ID ∧
    (0 ≤ user.ID → ∀ c, c ∈ (Sprint user.ID).data → 48 ≤ c.toNat ∧ c.toNat ≤ 57) ∧
    (user.ID < 0 → ∃ ds, (Sprint user.ID).data = '-' :: ds ∧ ds ≠ [] ∧
      ∀ c, c ∈ ds → 48 ≤ c.toNat ∧ c.toNat ≤ 57) ∧
    ∀ p, a.GenerateTokenPair J user t1 t2 t3 t4 = (p, none) →
      SignedString J ((New .HS256).1, a.accessClaims user t1 t2, .HS256) a.Secret
        = .ok p.Token ∧
      SignedString J ((New .HS256).1, a.refreshClaims user t3 t4, .HS256) a.Secret
        = .ok p.RefresToken := by
  refine ⟨?_, ?_, Sprint_ne_nil _, Atoi_Sprint _ hid1 hid2, ?_, ?_,
    fun p hp => GenerateTokenPair_ok J a user t1 t2 t3 t4 p hp⟩
  · rw [accessClaims_eq]; rfl
  · rw [refreshClaims_eq]; rfl
  · intro h0 c hc
    have : ¬ user.ID < 0 := by omega
    simp only [Sprint, this, if_false] at hc
    exact formatNat_digits _ c hc
  · intro h0
    refine ⟨(formatNat user.ID.natAbs).data, ?_, formatNat_ne_nil _, formatNat_digits _⟩
    simp only [Sprint, h0, if_true, String.data_append]
    rfl

/-- C8 at the user of id 7. -/
theorem C8_subject_encoding_witness :
    (defaultAuth.accessClaims sampleUser 0 0).lookup "sub" = some (.str (Sprint sampleUser.ID)) ∧
    (defaultAuth.refreshClaims sampleUser 0 0).lookup "sub"
      = some (.str (Sprint sampleUser.ID)) ∧
    (Sprint sampleUser.ID).data ≠ [] ∧
    Atoi (Sprint sampleUser.ID) = some sampleUser.ID ∧
    (0 ≤ sampleUser.ID →
      ∀ c, c ∈ (Sprint sampleUser.ID).data → 48 ≤ c.toNat ∧ c.toNat ≤ 57) ∧
    (sampleUser.ID < 0 → ∃ ds, (Sprint sampleUser.ID).data = '-' :: ds ∧ ds ≠ [] ∧
      ∀ c, c ∈ ds → 48 ≤ c.toNat ∧ c.toNat ≤ 57) ∧
    ∀ p, defaultAuth.GenerateTokenPair refJWT sampleUser 0 0 0 0 = (p, none) →
      SignedString refJWT ((New .HS256).1, defaultAuth.accessClaims sampleUser 0 0, .HS256)
          defaultAuth.Secret = .ok p.Token ∧
      SignedString refJWT ((New .HS256).1, defaultAuth.refreshClaims sampleUser 0 0, .HS256)
          defaultAuth.Secret = .ok p.RefresToken :=
  C8_subject_encoding refJWT defaultAuth sampleUser 0 0 0 0 (by decide) (by decide)

/-- C8 fails as stated: for the id -1 the `sub` claim of both tokens is `-1`,
whose first character is not a decimal digit. -/
theorem C8_counterexample :
    (defaultAuth.accessClaims negativeUser 0 0).lookup "sub" = some (.str "-1") ∧
    (defaultAuth.refreshClaims negativeUser 0 0).lookup "sub" = some (.str "-1") ∧
    '-' ∈ ("-1").data ∧ ¬ (48 ≤ ('-').toNat ∧ ('-').toNat ≤ 57) := by
  decide

/-- C9, as amended. Live cookie: for every configuration, clock reading and
refresh token, `GetRefreshCookie` returns a cookie whose value is the token and
whose `Expires` is `now` plus the refresh lifetime; when the refresh lifetime is
a whole number `L` of seconds (in the range of `time.Duration`), `MaxAge` is `L`
and `MaxAge` seconds equal `Expires` minus `now`. -/
theorem C9_live_cookie (a : auth) (now : Int) (tok : String) (L : Int)
    (hL : a.RefreshExpiry = L * Second)
    (h1 : -(2 ^ 63 : Int) ≤ a.RefreshExpiry) (h2 : a.RefreshExpiry < 2 ^ 63) :
    (a.GetRefreshCookie now tok).Value = tok ∧
    (a.GetRefreshCookie now tok).Expires = now + a.RefreshExpiry ∧
    (a.GetRefreshCookie now tok).MaxAge = L ∧
    (a.GetRefreshCookie now tok).MaxAge * Second = (a.GetRefreshCookie now tok).Expires - now := by
  have hm : (a.GetRefreshCookie now tok).MaxAge = L := by
    show intSeconds a.RefreshExpiry = L
    rw [hL]
    rw [hL] at h1 h2
    unfold Second at h1 h2
    exact intSeconds_whole L (by omega) (by omega)
  refine ⟨rfl, rfl, hm, ?_⟩
  rw [hm]
  show L * Second = now + a.RefreshExpiry - now
  rw [hL]
  omega

/-- C9 at the configuration of `main.go`: a refresh lifetime of 86400 seconds. -/
theorem C9_live_cookie_witness :
    (defaultAuth.GetRefreshCookie (timeOfUnix 1000) "token").Value = "token" ∧
    (defaultAuth.GetRefreshCookie (timeOfUnix 1000) "token").Expires
      = timeOfUnix 1000 + defaultAuth.RefreshExpiry ∧
    (defaultAuth.GetRefreshCookie (timeOfUnix 1000) "token").MaxAge = 86400 ∧
    (defaultAuth.GetRefreshCookie (timeOfUnix 1000) "token").MaxAge * Second
      = (defaultAuth.GetRefreshCookie (timeOfUnix 1000) "token").Expires - timeOfUnix 1000 :=
  C9_live_cookie defaultAuth (timeOfUnix 1000) "token" 86400 (by decide) (by decide) (by decide)

set_option maxRecDepth 100000 in
/-- C9 fails as stated: with a refresh lifetime of one second and a half,
`MaxAge` is 1 while `Expires` minus `now` is one second and a half. -/
theorem C9_counterexample :
    (fractionalRefreshAuth.GetRefreshCookie (timeOfUnix 1000) "token").MaxAge = 1 ∧
    (fractionalRefreshAuth.GetRefreshCookie (timeOfUnix 1000) "token").Expires - timeOfUnix 1000
      = 1500000000 ∧
    (fractionalRefreshAuth.GetRefreshCookie (timeOfUnix 1000) "token").MaxAge * Second
      ≠ (fractionalRefreshAuth.GetRefreshCookie (timeOfUnix 1000) "token").Expires
        - timeOfUnix 1000 := by
  decide

/-- C10. Expired cookie: for every configuration, `GetExpiredRefreshCookie`
returns a cookie with an empty value, `Expires` at the Unix epoch and `MaxAge`
-1, and it is the cookie of `GetRefreshCookie` with these three fields replaced:
name, domain and path are the same, and `Secure`, `HttpOnly` and
`SameSite=Strict` are set in both. -/
theorem C10_expired_cookie (a : auth) (now : Int) (tok : String) :
    a.GetExpiredRefreshCookie.Value = "" ∧
    a.GetExpiredRefreshCookie.Expires = 0 ∧
    a.GetExpiredRefreshCookie.MaxAge = -1 ∧
    a.GetExpiredRefreshCookie.MaxAge < 0 ∧
    a.GetExpiredRefreshCookie =
      { a.GetRefreshCookie now tok with Value := "", Expires := timeOfUnix 0, MaxAge := -1 } ∧
    a.GetExpiredRefreshCookie.Name = (a.GetRefreshCookie now tok).Name ∧
    a.GetExpiredRefreshCookie.Domain = (a.GetRefreshCookie now tok).Domain ∧
    a.GetExpiredRefreshCookie.Path = (a.GetRefreshCookie now tok).Path ∧
    a.GetExpiredRefreshCookie.Secure = true ∧ (a.GetRefreshCookie now tok).Secure = true ∧
    a.GetExpiredRefreshCookie.HttpOnly = true ∧ (a.GetRefreshCookie now tok).HttpOnly = true ∧
    a.GetExpiredRefreshCookie.SameSite = .SameSiteStrictMode ∧
    (a.GetRefreshCookie now tok).SameSite = .SameSiteStrictMode := by
  refine ⟨rfl, ?_, rfl, ?_, rfl, rfl, rfl, rfl, rfl, rfl, rfl, rfl, rfl, rfl⟩
  · show timeOfUnix 0 = 0
    decide
  · show (-1 : Int) < 0
    decide

/-! ## The refresh handler -/

theorem refreshTokenLoop_unauthorized (J : JWT) (app : application) (clock : Nat → Int)
    (cookies : List RequestCookie) (n : Nat) (done : List Effect)
    (hex : ∃ c, c ∈ cookies ∧ c.Name = app.auth.CookieName)
    (hfail : ∀ c, c ∈ cookies → c.Name = app.auth.CookieName →
      (ParseWithClaims J (clock n) c.Value app.refreshKeyFunc).2 ≠ none) :
    application.refreshTokenLoop J app clock cookies n done =
      done ++ [.errorJSON "unauthorized" StatusUnauthorized] := by
  induction cookies with
  | nil =>
    obtain ⟨c, hc, _⟩ := hex
    simp at hc
  | cons c cs ih =>
    unfold application.refreshTokenLoop
    by_cases hname : c.Name = app.auth.CookieName
    · simp only [hname, if_true]
      have hc := hfail c (List.mem_cons_self _ _) hname
      split
      · rfl
      · rename_i parsed hp
        rw [hp] at hc
        exact absurd rfl hc
    · simp only [hname, if_false]
      apply ih
      · obtain ⟨d, hd, hdn⟩ := hex
        rcases List.mem_cons.mp hd with rfl | hd
        · exact absurd hdn hname
        · exact ⟨d, hd, hdn⟩
      · intro d hd hdn
        exact hfail d (List.mem_cons_of_mem _ hd) hdn

/-- C11, as amended. Refresh rejection without subject resolution: for every
codec and every request to `refreshToken` that has at least one cookie with the
configured refresh-cookie name and in which every such cookie carries a value
that fails parsing or signature or expiry verification, the handler makes one
call only, `errorJSON` with "unauthorized" and status 401: it never calls
`DB.UserByID`, never calls `GenerateTokenPair` and sets no cookie. -/
theorem C11_refresh_rejection (J : JWT) (app : application) (clock : Nat → Int)
    (cookies : List RequestCookie)
    (hex : ∃ c, c ∈ cookies ∧ c.Name = app.auth.CookieName)
    (hfail : ∀ c, c ∈ cookies → c.Name = app.auth.CookieName →
      (ParseWithClaims J (clock 0) c.Value app.refreshKeyFunc).2 ≠ none) :
    app.refreshToken J clock cookies = [.errorJSON "unauthorized" StatusUnauthorized] ∧
    StatusUnauthorized = 401 ∧
    (∀ id, Effect.UserByID id ∉ app.refreshToken J clock cookies) ∧
    (∀ u, Effect.GenerateTokenPair u ∉ app.refreshToken J clock cookies) ∧
    (∀ c, Effect.SetCookie c ∉ app.refreshToken J clock cookies) := by
  have h : app.refreshToken J clock cookies = [.errorJSON "unauthorized" StatusUnauthorized] := by
    unfold application.refreshToken
    rw [refreshTokenLoop_unauthorized J app clock cookies 0 [] hex hfail]
    rfl
  rw [h]
  refine ⟨rfl, rfl, ?_, ?_, ?_⟩ <;> intro x hx <;> simp at hx

/-- C11 at a request whose refresh cookie holds a string that is no token,
beside a cookie of another name. -/
theorem C11_refresh_rejection_witness :
    sampleApp.refreshToken refJWT (fun _ => timeOfUnix 1000)
        [⟨"theme", "dark"⟩, ⟨"Host-refresh_token", "garbage"⟩]
      = [.errorJSON "unauthorized" StatusUnauthorized] ∧
    StatusUnauthorized = 401 ∧
    (∀ id, Effect.UserByID id ∉ sampleApp.refreshToken refJWT (fun _ => timeOfUnix 1000)
        [⟨"theme", "dark"⟩, ⟨"Host-refresh_token", "garbage"⟩]) ∧
    (∀ u, Effect.GenerateTokenPair u ∉ sampleApp.refreshToken refJWT (fun _ => timeOfUnix 1000)
        [⟨"theme", "dark"⟩, ⟨"Host-refresh_token", "garbage"⟩]) ∧
    (∀ c, Effect.SetCookie c ∉ sampleApp.refreshToken refJWT (fun _ => timeOfUnix 1000)
        [⟨"theme", "dark"⟩, ⟨"Host-refresh_token", "garbage"⟩]) :=
  C11_refresh_rejection refJWT sampleApp (fun _ => timeOfUnix 1000)
    [⟨"theme", "dark"⟩, ⟨"Host-refresh_token", "garbage"⟩]
    ⟨⟨"Host-refresh_token", "garbage"⟩, by decide, by decide⟩
    (by
      intro c hc hname
      simp only [List.mem_cons, List.mem_singleton, List.not_mem_nil, or_false] at hc
      rcases hc with rfl | rfl
      · exact absurd hname (by decide)
      · decide)

/-- C11 fails as stated: a request with no cookie of the configured name (no
cookie at all, or only a cookie of another name) satisfies the condition of the
claim, and the handler makes no call at all: there is no 401 response. -/
theorem C11_counterexample :
    (∀ c : RequestCookie, c ∈ [(⟨"theme", "dark"⟩ : RequestCookie)] →
      c.Name = sampleApp.auth.CookieName →
      (ParseWithClaims refJWT (timeOfUnix 1000) c.Value sampleApp.refreshKeyFunc).2 ≠ none) ∧
    sampleApp.refreshToken refJWT (fun _ => timeOfUnix 1000) [⟨"theme", "dark"⟩] = [] ∧
    sampleApp.refreshToken refJWT (fun _ => timeOfUnix 1000) [] = [] ∧
    Effect.errorJSON "unauthorized" StatusUnauthorized ∉
      sampleApp.refreshToken refJWT (fun _ => timeOfUnix 1000) [⟨"theme", "dark"⟩] := by
  refine ⟨?_, by decide, by decide, by decide⟩
  intro c hc hname
  simp only [List.mem_singleton] at hc
  subst hc
  exact absurd hname (by decide)

/-! ## A refresh token presented as an access token -/

theorem samplePair_issued :
    defaultAuth.GenerateTokenPair refJWT sampleUser (timeOfUnix 1000) (timeOfUnix 1000)
      (timeOfUnix 1000) (timeOfUnix 1000) = (samplePair, none) := by
  obtain ⟨p, hp⟩ := GenerateTokenPair_succeeds refJWT refJWT_lawful defaultAuth sampleUser
    (timeOfUnix 1000) (timeOfUnix 1000) (timeOfUnix 1000) (timeOfUnix 1000)
  unfold samplePair
  rw [hp]

theorem emptyIssuerPair_issued :
    emptyIssuerAuth.GenerateTokenPair refJWT sampleUser (timeOfUnix 1000) (timeOfUnix 1000)
      (timeOfUnix 1000) (timeOfUnix 1000) = (emptyIssuerPair, none) := by
  obtain ⟨p, hp⟩ := GenerateTokenPair_succeeds refJWT refJWT_lawful emptyIssuerAuth sampleUser
    (timeOfUnix 1000) (timeOfUnix 1000) (timeOfUnix 1000) (timeOfUnix 1000)
  unfold emptyIssuerPair
  rw [hp]

/-- C12, as amended. A refresh token is not usable as an access token: for every
lawful codec, identity and configuration, the refresh token of a pair returned
by `GenerateTokenPair`, presented as `Bearer <refresh token>` (dates within the
range where they are exact), is handled as follows. With a non-empty configured
issuer the call fails at every instant, returning no token and no claims: with
"invalid issuer" at every instant at which the token is unexpired and not
before its `iat`, with "expired token" from its expiry on. With an empty
configured issuer the call succeeds at every instant at which the token is
unexpired and not before its `iat`. -/
theorem C12_refresh_as_access (J : JWT) (hJ : J.Lawful) (a : auth) (user : jwtUser)
    (t1 t2 t3 t4 now : Int) (w : Header) (p : tokenPairs)
    (hiat : (Unix t3).natAbs ≤ 2 ^ 53) (hexp : (Unix (t4 + a.RefreshExpiry)).natAbs ≤ 2 ^ 53)
    (hp : a.GenerateTokenPair J user t1 t2 t3 t4 = (p, none)) :
    (a.Issuer ≠ "" →
      ∃ e, a.GetTokenFromHeaderAndVerify J now w
          (requestWithAuthorization ("Bearer " ++ p.RefresToken))
        = (w.Add "Vary" "Authorization", ⟨"", none, some e⟩)) ∧
    (a.Issuer ≠ "" → timeOfUnix (Unix t3) ≤ now →
      now < timeOfUnix (Unix (t4 + a.RefreshExpiry)) →
      a.GetTokenFromHeaderAndVerify J now w
          (requestWithAuthorization ("Bearer " ++ p.RefresToken))
        = (w.Add "Vary" "Authorization", ⟨"", none, some (.text "invalid issuer")⟩)) ∧
    (timeOfUnix (Unix (t4 + a.RefreshExpiry)) ≤ now →
      a.GetTokenFromHeaderAndVerify J now w
          (requestWithAuthorization ("Bearer " ++ p.RefresToken))
        = (w.Add "Vary" "Authorization", ⟨"", none, some (.text "expired token")⟩)) ∧
    (a.Issuer = "" → timeOfUnix (Unix t3) ≤ now →
      now < timeOfUnix (Unix (t4 + a.RefreshExpiry)) →
      a.GetTokenFromHeaderAndVerify J now w
          (requestWithAuthorization ("Bearer " ++ p.RefresToken))
        = (w.Add "Vary" "Authorization",
            ⟨p.RefresToken, some ⟨(a.refreshClaims user t3 t4).toRegistered⟩, none⟩)) := by
  obtain ⟨_, hR⟩ := GenerateTokenPair_ok J a user t1 t2 t3 t4 p hp
  obtain ⟨hnd, hok⟩ := refreshClaims_wellTyped a user t3 t4 hiat hexp
  have hv := verify_signedString J hJ a now w _ p.RefresToken hnd hok hR
  have hissuer : (a.refreshClaims user t3 t4).toRegistered.Issuer = "" := by
    rw [refreshClaims_toRegistered]
  have hwindow : timeOfUnix (Unix t3) ≤ now → now < timeOfUnix (Unix (t4 + a.RefreshExpiry)) →
      (a.refreshClaims user t3 t4).toRegistered.Valid now = none := by
    intro h1 h2
    rw [refreshClaims_toRegistered]
    apply Valid_none
    · intro e he
      simp only [Option.some.injEq] at he
      rw [← he]; exact h2
    · intro i hi
      simp only [Option.some.injEq] at hi
      rw [← hi]; exact h1
    · intro n hn
      simp at hn
  refine ⟨?_, ?_, ?_, ?_⟩
  · intro hne
    rw [hv]
    cases (a.refreshClaims user t3 t4).toRegistered.Valid now with
    | some e =>
      by_cases hx : e.IsExpired = true
      · exact ⟨.text "expired token", by simp [hx]⟩
      · exact ⟨.jwt e, by simp [hx]⟩
    | none =>
      have : ¬ ("" = a.Issuer) := fun h => hne h.symm
      exact ⟨.text "invalid issuer", by simp [hissuer, this]⟩
  · intro hne h1 h2
    rw [hv, hwindow h1 h2]
    have : ¬ ("" = a.Issuer) := fun h => hne h.symm
    simp [hissuer, this]
  · intro hle
    obtain ⟨v, hv1, hv2⟩ := Valid_expired (a.refreshClaims user t3 t4).toRegistered now
      (timeOfUnix (Unix (t4 + a.RefreshExpiry))) (by rw [refreshClaims_toRegistered]) hle
    rw [hv, hv1]
    simp [hv2]
  · intro he h1 h2
    rw [hv, hwindow h1 h2]
    simp [hissuer, he]

/-- C12 at the configuration of `main.go`, the reference codec, the pair issued
at second 1000 and presented at second 2000. -/
theorem C12_refresh_as_access_witness :
    (defaultAuth.Issuer ≠ "" →
      ∃ e, defaultAuth.GetTokenFromHeaderAndVerify refJWT (timeOfUnix 2000) []
          (requestWithAuthorization ("Bearer " ++ samplePair.RefresToken))
        = (Header.Add [] "Vary" "Authorization", ⟨"", none, some e⟩)) ∧
    (defaultAuth.Issuer ≠ "" → timeOfUnix (Unix (timeOfUnix 1000)) ≤ timeOfUnix 2000 →
      timeOfUnix 2000 < timeOfUnix (Unix (timeOfUnix 1000 + defaultAuth.RefreshExpiry)) →
      defaultAuth.GetTokenFromHeaderAndVerify refJWT (timeOfUnix 2000) []
          (requestWithAuthorization ("Bearer " ++ samplePair.RefresToken))
        = (Header.Add [] "Vary" "Authorization",
            ⟨"", none, some (.text "invalid issuer")⟩)) ∧
    (timeOfUnix (Unix (timeOfUnix 1000 + defaultAuth.RefreshExpiry)) ≤ timeOfUnix 2000 →
      defaultAuth.GetTokenFromHeaderAndVerify refJWT (timeOfUnix 2000) []
          (requestWithAuthorization ("Bearer " ++ samplePair.RefresToken))
        = (Header.Add [] "Vary" "Authorization",
            ⟨"", none, some (.text "expired token")⟩)) ∧
    (defaultAuth.Issuer = "" → timeOfUnix (Unix (timeOfUnix 1000)) ≤ timeOfUnix 2000 →
      timeOfUnix 2000 < timeOfUnix (Unix (timeOfUnix 1000 + defaultAuth.RefreshExpiry)) →
      defaultAuth.GetTokenFromHeaderAndVerify refJWT (timeOfUnix 2000) []
          (requestWithAuthorization ("Bearer " ++ samplePair.RefresToken))
        = (Header.Add [] "Vary" "Authorization",
            ⟨samplePair.RefresToken,
              some ⟨(defaultAuth.refreshClaims sampleUser (timeOfUnix 1000)
                (timeOfUnix 1000)).toRegistered⟩, none⟩)) :=
  C12_refresh_as_access refJWT refJWT_lawful defaultAuth sampleUser (timeOfUnix 1000)
    (timeOfUnix 1000) (timeOfUnix 1000) (timeOfUnix 1000) (timeOfUnix 2000) [] samplePair
    (by decide) (by decide) samplePair_issued

/-- C12 fails as stated. At second 90000, past the expiry of the refresh token
issued at second 1000, the call fails with "expired token", not with "invalid
issuer"; and with an empty configured issuer the same call, at that instant,
fails too. -/
theorem C12_counterexample :
    defaultAuth.GenerateTokenPair refJWT sampleUser (timeOfUnix 1000) (timeOfUnix 1000)
      (timeOfUnix 1000) (timeOfUnix 1000) = (samplePair, none) ∧
    defaultAuth.Issuer ≠ "" ∧
    (defaultAuth.GetTokenFromHeaderAndVerify refJWT (timeOfUnix 90000) []
        (requestWithAuthorization ("Bearer " ++ samplePair.RefresToken))).2
      = ⟨"", none, some (.text "expired token")⟩ ∧
    Error.text "expired token" ≠ Error.text "invalid issuer" ∧
    emptyIssuerAuth.GenerateTokenPair refJWT sampleUser (timeOfUnix 1000) (timeOfUnix 1000)
      (timeOfUnix 1000) (timeOfUnix 1000) = (emptyIssuerPair, none) ∧
    emptyIssuerAuth.Issuer = "" ∧
    (emptyIssuerAuth.GetTokenFromHeaderAndVerify refJWT (timeOfUnix 90000) []
        (requestWithAuthorization ("Bearer " ++ emptyIssuerPair.RefresToken))).2
      = ⟨"", none, some (.text "expired token")⟩ := by
  obtain ⟨_, hR1⟩ := GenerateTokenPair_ok _ _ _ _ _ _ _ _ samplePair_issued
  obtain ⟨_, hR2⟩ := GenerateTokenPair_ok _ _ _ _ _ _ _ _ emptyIssuerPair_issued
  obtain ⟨hnd1, hok1⟩ := refreshClaims_wellTyped defaultAuth sampleUser (timeOfUnix 1000)
    (timeOfUnix 1000) (by decide) (by decide)
  obtain ⟨hnd2, hok2⟩ := refreshClaims_wellTyped emptyIssuerAuth sampleUser (timeOfUnix 1000)
    (timeOfUnix 1000) (by decide) (by decide)
  have h1 := verify_signedString refJWT refJWT_lawful defaultAuth (timeOfUnix 90000) [] _
    samplePair.RefresToken hnd1 hok1 hR1
  have h2 := verify_signedString refJWT refJWT_lawful emptyIssuerAuth (timeOfUnix 90000) [] _
    emptyIssuerPair.RefresToken hnd2 hok2 hR2
  have hv1 : (defaultAuth.refreshClaims sampleUser (timeOfUnix 1000)
      (timeOfUnix 1000)).toRegistered.Valid (timeOfUnix 90000)
      = some ⟨"token is expired", 16⟩ := by
    rw [refreshClaims_toRegistered]
    decide
  have hv2 : (emptyIssuerAuth.refreshClaims sampleUser (timeOfUnix 1000)
      (timeOfUnix 1000)).toRegistered.Valid (timeOfUnix 90000)
      = some ⟨"token is expired", 16⟩ := by
    rw [refreshClaims_toRegistered]
    decide
  refine ⟨samplePair_issued, by decide, ?_, by decide, emptyIssuerPair_issued, rfl, ?_⟩
  · rw [h1, hv1]
    rfl
  · rw [h2, hv2]
    rfl

end GoMovies
